import Mathlib

/-!
Verification development for the market-making bot core
(`mm_bot`): order lifecycle tracking (`bot.py`), position ledger
(`position_tracker.py`), skew quoting (`skew_quoter.py`) and balance
filtering.  Python `Decimal` arithmetic is modelled exactly by `ℚ`;
Python dicts over strings / ints are modelled by functional maps
`K → Option V` (and, where iteration order matters, association lists);
Python `set` by `String → Bool`.
-/

namespace MMBot


/-- Order side, from `kuru_sdk_py.manager.order.OrderSide`. -/
inductive OrderSide where
  | BUY
  | SELL
deriving DecidableEq, Repr

/-- Order lifecycle status, from `kuru_sdk_py.manager.order.OrderStatus`
(the statuses dispatched on in `Bot.order_callback`). -/
inductive OrderStatus where
  | ORDER_PLACED
  | ORDER_CANCELLED
  | ORDER_PARTIALLY_FILLED
  | ORDER_FULLY_FILLED
  | ORDER_TIMEOUT
  | ORDER_FAILED
deriving DecidableEq, Repr

/-- Order type, from `kuru_sdk_py.manager.order.OrderType` (the two
constructors the bot uses). -/
inductive OrderType where
  | LIMIT
  | CANCEL
deriving DecidableEq, Repr

/-- Functional-map update: `m[k] = v` on a Python dict. -/
def mupd {K V : Type} [DecidableEq K] (m : K → Option V) (k : K) (v : V) : K → Option V :=
  fun x => if x = k then some v else m x

/-- Functional-map deletion: `m.pop(k, None)` / `del m[k]` on a Python dict. -/
def mdel {K V : Type} [DecidableEq K] (m : K → Option V) (k : K) : K → Option V :=
  fun x => if x = k then none else m x

/-- Set insertion: `s.add(x)` on a Python set. -/
def sadd (s : String → Bool) (x : String) : String → Bool :=
  fun y => if y = x then true else s y

/-- Set removal: `s.discard(x)` on a Python set. -/
def sdel (s : String → Bool) (x : String) : String → Bool :=
  fun y => if y = x then false else s y

/-- `OrderInfo` from `bot.py`: local representation of an active order for
inventory tracking.  `side` is stored exactly as delivered by the
callback, which may be absent. -/
structure OrderInfo where
  cloid : String
  side : Option OrderSide
  price : ℚ
  size : ℚ
  order_id : Option ℕ
deriving DecidableEq, Repr

/-- Association-list lookup (Python `k in d` / `d[k]`). -/
def alGet (m : List (String × OrderInfo)) (k : String) : Option OrderInfo :=
  match m with
  | [] => none
  | (k', v) :: t => if k' = k then some v else alGet t k

/-- Association-list insert-or-overwrite (Python `d[k] = v`, preserving
insertion order like a CPython dict). -/
def alUpd (m : List (String × OrderInfo)) (k : String) (v : OrderInfo) :
    List (String × OrderInfo) :=
  match m with
  | [] => [(k, v)]
  | (k', v') :: t => if k' = k then (k, v) :: t else (k', v') :: alUpd t k v

/-- Association-list deletion (Python `d.pop(k, None)`). -/
def alDel (m : List (String × OrderInfo)) (k : String) : List (String × OrderInfo) :=
  match m with
  | [] => []
  | (k', v) :: t => if k' = k then alDel t k else (k', v) :: alDel t k

/-- Association-list in-place size mutation
(Python `d[k].size = sz` when `k in d`). -/
def alSetSize (m : List (String × OrderInfo)) (k : String) (sz : ℚ) :
    List (String × OrderInfo) :=
  m.map (fun kv => if kv.1 = k then (kv.1, { kv.2 with size := sz }) else kv)

/-- The position ledger held by `PositionTracker`
(`position_tracker.py`): net base position and net quote cash flow. -/
structure Ledger where
  current_position : ℚ
  quote_position : ℚ
deriving DecidableEq, Repr

/-- `PositionTracker.update_position`: a BUY fill adds `filled_size` to the
base position and subtracts `price * filled_size` from the quote cash
flow; a SELL fill does the mirror image; a fill whose side is absent
changes nothing. -/
def update_position (L : Ledger) (side : Option OrderSide) (filled_size price : ℚ) : Ledger :=
  match side with
  | some OrderSide.BUY =>
      { current_position := L.current_position + filled_size,
        quote_position := L.quote_position - price * filled_size }
  | some OrderSide.SELL =>
      { current_position := L.current_position - filled_size,
        quote_position := L.quote_position + price * filled_size }
  | none => L

/-- One invocation of `PositionTracker.update_position`, as recorded in
the bot state's fill audit log. -/
structure Fill where
  side : Option OrderSide
  size : ℚ
  price : ℚ
deriving DecidableEq, Repr

/-- An order event as delivered to `Bot.order_callback` (the `Order`
object of the SDK callback): `size` is the reported remaining size. -/
structure Event where
  cloid : String
  status : OrderStatus
  side : Option OrderSide
  size : Option ℚ
  price : Option ℚ
  kuru_order_id : Option ℕ
deriving DecidableEq, Repr

/-- The bot's mutable tracking state (the maps of `Bot.__init__` together
with the position ledger).  `fill_log` records each call of
`PositionTracker.update_position`; `error_log` records each
unattributable-fill error. -/
structure BotState where
  active_cloids : String → Bool
  cloid_to_order_id : String → Option ℕ
  order_id_to_cloid : ℕ → Option String
  order_sizes : String → Option ℚ
  preregistered_orders : String → Option (ℚ × ℚ)
  active_orders : List (String × OrderInfo)
  recently_cancelled_order_ids : ℕ → Option ℚ
  orphaned_order_timestamps : ℕ → Option ℚ
  ledger : Ledger
  fill_log : List Fill
  error_log : List String

/-- Record a fill: mutate the ledger via `update_position` and append the
call to the audit log. -/
def applyFill (s : BotState) (side : Option OrderSide) (filled_size price : ℚ) : BotState :=
  { s with
    ledger := update_position s.ledger side filled_size price,
    fill_log := s.fill_log ++ [⟨side, filled_size, price⟩] }

/-- `Bot._cleanup_order_tracking`: purge a cloid from every tracking map;
if the cloid still had a venue-id mapping, drop both directions of it and
(optionally) record the venue id as recently cancelled at time `now`. -/
def cleanup_order_tracking (now : ℚ) (s : BotState) (cloid : String)
    (order_id : Option ℕ) (mark_recently_cancelled : Bool) : BotState :=
  let s1 := { s with
    active_cloids := sdel s.active_cloids cloid,
    order_sizes := mdel s.order_sizes cloid,
    preregistered_orders := mdel s.preregistered_orders cloid,
    active_orders := alDel s.active_orders cloid }
  let s2 :=
    match s1.cloid_to_order_id cloid with
    | some mapped_order_id =>
        let s2a := { s1 with
          cloid_to_order_id := mdel s1.cloid_to_order_id cloid,
          order_id_to_cloid := mdel s1.order_id_to_cloid mapped_order_id }
        if mark_recently_cancelled then
          { s2a with recently_cancelled_order_ids := mupd s2a.recently_cancelled_order_ids mapped_order_id now }
        else s2a
    | none => s1
  match order_id with
  | some oid => { s2 with order_id_to_cloid := mdel s2.order_id_to_cloid oid }
  | none => s2

/-- The ownership filter at the top of `Bot.order_callback`: an event is
accepted if its cloid is currently active, was placed by us, is tracked
in the id map, or follows the bot's own cloid naming convention. -/
def is_our_order (s : BotState) (e : Event) : Prop :=
  s.active_cloids e.cloid = true ∨
  s.order_sizes e.cloid ≠ none ∨
  s.cloid_to_order_id e.cloid ≠ none ∨
  (e.cloid.startsWith "bid-" ∨ e.cloid.startsWith "ask-")

instance (s : BotState) (e : Event) : Decidable (is_our_order s e) := by
  unfold is_our_order; infer_instance

/-- The `ORDER_PLACED` branch of `Bot.order_callback`. -/
def handlePlaced (s : BotState) (e : Event) (osize oprice : ℚ) : BotState :=
  let s1 := { s with active_cloids := sadd s.active_cloids e.cloid }
  let s2 :=
    match e.kuru_order_id with
    | some oid => { s1 with
        cloid_to_order_id := mupd s1.cloid_to_order_id e.cloid oid,
        order_id_to_cloid := mupd s1.order_id_to_cloid oid e.cloid }
    | none => s1
  let s3 := { s2 with preregistered_orders := mdel s2.preregistered_orders e.cloid }
  let s4 :=
    match s3.order_sizes e.cloid with
    | none => { s3 with order_sizes := mupd s3.order_sizes e.cloid osize }
    | some _ => s3
  let s5 := { s4 with active_orders := alUpd s4.active_orders e.cloid ⟨e.cloid, e.side, oprice, osize, e.kuru_order_id⟩ }
  match e.kuru_order_id with
  | some oid =>
      match s5.orphaned_order_timestamps oid with
      | some _ => { s5 with orphaned_order_timestamps := mdel s5.orphaned_order_timestamps oid }
      | none => s5
  | none => s5

/-- The `ORDER_FULLY_FILLED` branch of `Bot.order_callback`: resolve the
previous known size from `order_sizes` or, failing that, from
`preregistered_orders`; feed the ledger once when attributable, log an
error otherwise; then run terminal cleanup. -/
def handleFullyFilled (now : ℚ) (s : BotState) (e : Event) (osize oprice : ℚ) : BotState :=
  let s' :=
    match s.order_sizes e.cloid with
    | some previous_size =>
        let sA := { s with
          order_sizes := mdel s.order_sizes e.cloid,
          preregistered_orders := mdel s.preregistered_orders e.cloid }
        applyFill sA e.side (previous_size - osize) oprice
    | none =>
        match s.preregistered_orders e.cloid with
        | some pre =>
            let sB := { s with preregistered_orders := mdel s.preregistered_orders e.cloid }
            applyFill sB e.side (pre.1 - osize) oprice
        | none =>
            { s with error_log := s.error_log ++ [e.cloid] }
  cleanup_order_tracking now s' e.cloid e.kuru_order_id false

/-- The `ORDER_PARTIALLY_FILLED` branch of `Bot.order_callback`. -/
def handlePartiallyFilled (s : BotState) (e : Event) (osize oprice : ℚ) : BotState :=
  match s.order_sizes e.cloid with
  | some previous_size =>
      let sA := applyFill s e.side (previous_size - osize) oprice
      let sB := { sA with order_sizes := mupd sA.order_sizes e.cloid osize }
      match alGet sB.active_orders e.cloid with
      | some _ => { sB with active_orders := alSetSize sB.active_orders e.cloid osize }
      | none => sB
  | none =>
      match s.preregistered_orders e.cloid with
      | some pre =>
          let s0 := { s with
            order_sizes := mupd s.order_sizes e.cloid osize,
            preregistered_orders := mdel s.preregistered_orders e.cloid }
          let sA := applyFill s0 e.side (pre.1 - osize) oprice
          let sB := { sA with order_sizes := mupd sA.order_sizes e.cloid osize }
          match alGet sB.active_orders e.cloid with
          | some _ => { sB with active_orders := alSetSize sB.active_orders e.cloid osize }
          | none => sB
      | none => { s with error_log := s.error_log ++ [e.cloid] }

/-- `Bot.order_callback`: the single ingestion point for venue order
events.  `now` stands for `time.monotonic()` at the instant the event is
processed (used only for the recently-cancelled stamp). -/
def order_callback (now : ℚ) (s : BotState) (e : Event) : BotState :=
  if is_our_order s e then
    let osize := e.size.getD 0
    let oprice := e.price.getD 0
    match e.status with
    | OrderStatus.ORDER_PLACED => handlePlaced s e osize oprice
    | OrderStatus.ORDER_CANCELLED =>
        cleanup_order_tracking now s e.cloid e.kuru_order_id true
    | OrderStatus.ORDER_FULLY_FILLED => handleFullyFilled now s e osize oprice
    | OrderStatus.ORDER_PARTIALLY_FILLED => handlePartiallyFilled s e osize oprice
    | OrderStatus.ORDER_TIMEOUT =>
        cleanup_order_tracking now s e.cloid e.kuru_order_id false
    | OrderStatus.ORDER_FAILED =>
        cleanup_order_tracking now s e.cloid e.kuru_order_id false
  else s

/-- The PRESEND pre-registration step of `Bot.run_main_loop`: before
submission, a new limit order of size `size` is recorded in both
`preregistered_orders` (with its submit time) and `order_sizes`. -/
def preregister_order (s : BotState) (cloid : String) (size t : ℚ) : BotState :=
  { s with
    preregistered_orders := mupd s.preregistered_orders cloid (size, t),
    order_sizes := mupd s.order_sizes cloid size }

/-- `Bot.get_locked_inventory`: walk the callback-tracked active orders;
each buy order locks `size * price` of quote, every other order locks its
remaining `size` of base.  Returns `(locked_base, locked_quote)`. -/
def get_locked_inventory (s : BotState) : ℚ × ℚ :=
  s.active_orders.foldl
    (fun acc kv =>
      match kv.2.side with
      | some OrderSide.BUY => (acc.1, acc.2 + kv.2.size * kv.2.price)
      | _ => (acc.1 + kv.2.size, acc.2))
    (0, 0)

/-- The drift-accounting report produced by one run of
`Bot._reconcile_position`. -/
structure ReconcileReport where
  locked_base : ℚ
  locked_quote : ℚ
  total_base : ℚ
  drift : ℚ
  drift_delta : ℚ
deriving DecidableEq, Repr

/-- The drift-accounting core of `Bot._reconcile_position`: locked
inventory is taken from the registry (`get_locked_inventory`, no venue
query), total owned base is free plus locked, drift is total owned minus
the tracked position, and the drift delta compares against the previous
run's stored drift (`_last_reconcile_drift`, absent on the first run).
Returns the report together with the new stored drift. -/
def reconcile_position (s : BotState) (free_base : ℚ) (tracked_position : ℚ)
    (last_reconcile_drift : Option ℚ) : ReconcileReport × Option ℚ :=
  let locked := get_locked_inventory s
  let total_base := free_base + locked.1
  let drift := total_base - tracked_position
  let drift_delta :=
    match last_reconcile_drift with
    | some previous_drift => drift - previous_drift
    | none => 0
  (⟨locked.1, locked.2, total_base, drift, drift_delta⟩, some drift)

/-- `ExistingOrder` from `quoter/context.py`: an order the bot knows
about, resolved from its tracking sources.  `source` is one of
`"on_chain"`, `"callback"`, `"preregistered"`, `"unknown"`. -/
structure ExistingOrder where
  cloid : String
  side : OrderSide
  price : Option ℚ
  source : String
deriving DecidableEq, Repr

/-- `QuoterContext` from `quoter/context.py`: the immutable snapshot a
quoter decides on. -/
structure QuoterContext where
  reference_price : ℚ
  current_position : ℚ
  max_position : ℚ
  existing_bid : Option ExistingOrder
  existing_ask : Option ExistingOrder
  stop_bids : Bool
  stop_asks : Bool
  prop_maintain : ℚ
deriving DecidableEq, Repr

/-- A new limit order emitted by a quoter decision
(`Order(cloid, LIMIT, side, price, size)` in `skew_quoter.py`). -/
structure NewOrder where
  cloid : String
  side : OrderSide
  price : ℚ
  size : ℚ
deriving DecidableEq, Repr

/-- `QuoterDecision` from `quoter/context.py`. -/
structure QuoterDecision where
  cancels : List String
  new_orders : List NewOrder
deriving DecidableEq, Repr

/-- The strategy parameters of a `SkewQuoter` (`skew_quoter.py`). -/
structure SkewQuoter where
  quoter_id : String
  quantity : ℚ
  baseline_edge_bps : ℚ
  prop_skew_entry : ℚ
  prop_skew_exit : ℚ
deriving DecidableEq, Repr

/-- `BaseQuoter.calculate_order_edge`: signed edge of an existing order
in bps relative to the reference price. -/
def calculate_order_edge (order_price : ℚ) (order_side : OrderSide)
    (reference_price : ℚ) : ℚ :=
  match order_side with
  | OrderSide.BUY => (reference_price - order_price) / reference_price * 10000
  | OrderSide.SELL => (order_price - reference_price) / reference_price * 10000

/-- `BaseQuoter.price_from_edge`. -/
def price_from_edge (edge_bps : ℚ) (side : OrderSide) (reference_price : ℚ) : ℚ :=
  match side with
  | OrderSide.BUY => reference_price * (1 - edge_bps / 10000)
  | OrderSide.SELL => reference_price * (1 + edge_bps / 10000)

/-- `BaseQuoter.make_cloid`: cloid generated for a fresh order, at
millisecond timestamp `now`. -/
def make_cloid (q : SkewQuoter) (side : String) (now : ℕ) : String :=
  side ++ "-" ++ q.quoter_id ++ "-" ++ toString now

/-- `SkewQuoter._get_skewed_edges`: clamp the inventory proportion to
`[-1, 1]` and skew the baseline edge; the long branch widens the bid by
the entry skew and tightens the ask by the exit skew, the other branch is
written with the roles reversed.  Returns `(bid_edge, ask_edge)`. -/
def get_skewed_edges (q : SkewQuoter) (ctx : QuoterContext) : ℚ × ℚ :=
  let prop0 := if ctx.max_position ≠ 0 then ctx.current_position / ctx.max_position else 0
  let prop_of_max := max (-1) (min 1 prop0)
  if prop_of_max > 0 then
    (q.baseline_edge_bps * (1 + prop_of_max * q.prop_skew_entry),
     q.baseline_edge_bps * (1 - prop_of_max * q.prop_skew_exit))
  else
    (q.baseline_edge_bps * (1 - prop_of_max * q.prop_skew_exit),
     q.baseline_edge_bps * (1 + prop_of_max * q.prop_skew_entry))

/-- `SkewQuoter._evaluate_existing_order`: decide for one side whether a
new order is needed and whether the existing one is cancelled.  Returns
`(need_new_order, cancel_cloid_or_none)`. -/
def evaluate_existing_order (existing : Option ExistingOrder) (side : OrderSide)
    (cancel_threshold : ℚ) (reference_price : ℚ) (stop_side : Bool) :
    Bool × Option String :=
  match existing with
  | none => (true, none)
  | some ex =>
      if ex.source = "preregistered" then (false, none)
      else if ex.source = "unknown" then (false, none)
      else
        match ex.price with
        | none => (false, none)
        | some p =>
            if stop_side then (true, some ex.cloid)
            else if calculate_order_edge p side reference_price ≥ cancel_threshold then
              (false, none)
            else (true, some ex.cloid)

/-- The cancel thresholds computed at the top of `SkewQuoter.decide`:
skewed edge times `1 - prop_maintain`, per side. -/
def cancel_thresholds (q : SkewQuoter) (ctx : QuoterContext) : ℚ × ℚ :=
  let edges := get_skewed_edges q ctx
  (edges.1 * (1 - ctx.prop_maintain), edges.2 * (1 - ctx.prop_maintain))

/-- The evaluation stage of `SkewQuoter.decide`: evaluate both sides and
collect their cancels.  Returns `(need_bid, need_ask, cancels)`. -/
def decide_evaluate (q : SkewQuoter) (ctx : QuoterContext) :
    Bool × Bool × List String :=
  let thresholds := cancel_thresholds q ctx
  let bid_eval := evaluate_existing_order ctx.existing_bid OrderSide.BUY
    thresholds.1 ctx.reference_price ctx.stop_bids
  let ask_eval := evaluate_existing_order ctx.existing_ask OrderSide.SELL
    thresholds.2 ctx.reference_price ctx.stop_asks
  let cancels0 :=
    match bid_eval.2 with
    | some c => [c]
    | none => []
  let cancels1 := cancels0 ++
    (match ask_eval.2 with
     | some c => [c]
     | none => [])
  (bid_eval.1, ask_eval.1, cancels1)

/-- The order-generation tail of `SkewQuoter.decide`: suppress stopped
sides and emit the new orders at the skewed edges. -/
def decide_finish (q : SkewQuoter) (now : ℕ) (ctx : QuoterContext)
    (need_bid need_ask : Bool) (cancels : List String) : QuoterDecision :=
  let edges := get_skewed_edges q ctx
  let final_need_bid := need_bid && !ctx.stop_bids
  let final_need_ask := need_ask && !ctx.stop_asks
  let bid_orders :=
    if final_need_bid then
      [NewOrder.mk (make_cloid q "bid" now) OrderSide.BUY
        (price_from_edge edges.1 OrderSide.BUY ctx.reference_price) q.quantity]
    else []
  let ask_orders :=
    if final_need_ask then
      [NewOrder.mk (make_cloid q "ask" now) OrderSide.SELL
        (price_from_edge edges.2 OrderSide.SELL ctx.reference_price) q.quantity]
    else []
  ⟨cancels, bid_orders ++ ask_orders⟩

/-- `SkewQuoter.decide`: evaluate both sides, apply the coupling rule
(one replaced side forces the other, except deferral when the untouched
side is still pre-registered), then generate orders. -/
def SkewQuoter.decide (q : SkewQuoter) (now : ℕ) (ctx : QuoterContext) : QuoterDecision :=
  if (decide_evaluate q ctx).1 && !(decide_evaluate q ctx).2.1 then
    match ctx.existing_ask with
    | some ex =>
        if ex.source = "preregistered" then ⟨[], []⟩
        else
          decide_finish q now ctx true true
            (if ex.cloid ∈ (decide_evaluate q ctx).2.2 then (decide_evaluate q ctx).2.2
             else (decide_evaluate q ctx).2.2 ++ [ex.cloid])
    | none => decide_finish q now ctx true true (decide_evaluate q ctx).2.2
  else if (decide_evaluate q ctx).2.1 && !(decide_evaluate q ctx).1 then
    match ctx.existing_bid with
    | some ex =>
        if ex.source = "preregistered" then ⟨[], []⟩
        else
          decide_finish q now ctx true true
            (if ex.cloid ∈ (decide_evaluate q ctx).2.2 then (decide_evaluate q ctx).2.2
             else (decide_evaluate q ctx).2.2 ++ [ex.cloid])
    | none => decide_finish q now ctx true true (decide_evaluate q ctx).2.2
  else
    decide_finish q now ctx (decide_evaluate q ctx).1 (decide_evaluate q ctx).2.1
      (decide_evaluate q ctx).2.2

/-- The deferral condition of the coupling rule in `SkewQuoter.decide`:
exactly one side needs replacement and the untouched side is still
pre-registered. -/
def decide_deferred (q : SkewQuoter) (ctx : QuoterContext) : Prop :=
  ((decide_evaluate q ctx).1 = true ∧ (decide_evaluate q ctx).2.1 = false ∧
    ∃ ex, ctx.existing_ask = some ex ∧ ex.source = "preregistered") ∨
  ((decide_evaluate q ctx).2.1 = true ∧ (decide_evaluate q ctx).1 = false ∧
    ∃ ex, ctx.existing_bid = some ex ∧ ex.source = "preregistered")

/-- An order in a submission batch, as consumed by
`Bot._filter_orders_by_balance` (`Order` with optional side/price/size;
cancels carry only a cloid). -/
structure BatchOrder where
  cloid : String
  order_type : OrderType
  side : Option OrderSide
  price : Option ℚ
  size : Option ℚ
deriving DecidableEq, Repr

/-- A venue-reported open order (an entry of `get_active_orders()` as
read by `_filter_orders_by_balance`): raw integer-scaled `size` and
`price`, plus side flag. -/
structure ChainOrder where
  orderid : ℕ
  isbuy : Bool
  size : ℚ
  price : ℚ
deriving DecidableEq, Repr

/-- The `on_chain_by_cloid` lookup built by `_filter_orders_by_balance`:
venue orders whose id resolves through `order_id_to_cloid`, keyed by
cloid (later entries overwrite earlier ones, like the Python dict). -/
def build_on_chain_by_cloid (order_id_to_cloid : ℕ → Option String)
    (on_chain_orders : List ChainOrder) : String → Option ChainOrder :=
  on_chain_orders.foldl
    (fun m o =>
      match order_id_to_cloid o.orderid with
      | some cloid => mupd m cloid o
      | none => m)
    (fun _ => none)

/-- The cancel-refund loop of `_filter_orders_by_balance`: each cancel
that resolves on chain returns its locked tokens to the free balance
(quote for buys, base for sells). -/
def available_after_cancels (ocb : String → Option ChainOrder)
    (size_precision price_precision : ℚ) (cancels : List BatchOrder)
    (free_base free_quote : ℚ) : ℚ × ℚ :=
  cancels.foldl
    (fun acc co =>
      match ocb co.cloid with
      | some o =>
          if o.isbuy then
            (acc.1, acc.2 + (o.size / size_precision) * (o.price / price_precision))
          else (acc.1 + o.size / size_precision, acc.2)
      | none => acc)
    (free_base, free_quote)

/-- The requirements loop of `_filter_orders_by_balance`: split the new
limit orders into well-formed buys and sells, summing the quote required
by buys and the base required by sells; malformed orders (missing
size/price) are skipped.  Returns
`(required_base, required_quote, buy_orders, sell_orders)`. -/
def required_step (acc : ℚ × ℚ × List BatchOrder × List BatchOrder) (o : BatchOrder) :
    ℚ × ℚ × List BatchOrder × List BatchOrder :=
  match o.side with
  | some OrderSide.BUY =>
      match o.size, o.price with
      | some sz, some pr => (acc.1, acc.2.1 + sz * pr, acc.2.2.1 ++ [o], acc.2.2.2)
      | some _, none => acc
      | none, _ => acc
  | some OrderSide.SELL =>
      match o.size with
      | some sz => (acc.1 + sz, acc.2.1, acc.2.2.1, acc.2.2.2 ++ [o])
      | none => acc
  | none => acc

def required_and_split (new_orders : List BatchOrder) :
    ℚ × ℚ × List BatchOrder × List BatchOrder :=
  new_orders.foldl required_step (0, 0, [], [])

/-- `Bot._filter_orders_by_balance`: keep every cancel, add the amounts
the batch's cancels release back to the free balances, then keep the
buys all-or-nothing against free quote, and the sells all-or-nothing
against free base. -/
def filter_orders_by_balance (order_id_to_cloid : ℕ → Option String)
    (size_precision price_precision : ℚ) (base_balance quote_balance : ℚ)
    (orders : List BatchOrder) (on_chain_orders : List ChainOrder) :
    List BatchOrder :=
  let ocb := build_on_chain_by_cloid order_id_to_cloid on_chain_orders
  let cancels := orders.filter (fun o => o.order_type = OrderType.CANCEL)
  let new_orders := orders.filter (fun o => o.order_type = OrderType.LIMIT)
  let avail := available_after_cancels ocb size_precision price_precision
    cancels base_balance quote_balance
  let req := required_and_split new_orders
  let filtered1 := if req.2.1 ≤ avail.2 then cancels ++ req.2.2.1 else cancels
  if req.1 ≤ avail.1 then filtered1 ++ req.2.2.2 else filtered1

/-- A concrete context for the C5 witness: no bid, a stopped ask resting
on chain. -/
def c5_witness_ctx : QuoterContext :=
  ⟨1, 0, 1000, none, some ⟨"ask-50.0-1", OrderSide.SELL, some 2, "on_chain"⟩, false, true, 1/5⟩

/-- The quoter used in the C6 counterexample: baseline 50bps, entry/exit
skew 0.5, quantity 100. -/
def c6_q : SkewQuoter := ⟨"50.0", 100, 50, 1/2, 1/2⟩

/-- C6 counterexample context A: bid stop flag set, the existing bid
resting on chain with a known price, the ask still pre-registered. -/
def c6_ctxA : QuoterContext :=
  ⟨1, 0, 1000, some ⟨"bid-50.0-1", OrderSide.BUY, some (199/200), "on_chain"⟩,
    some ⟨"ask-50.0-2", OrderSide.SELL, none, "preregistered"⟩, true, false, 1/5⟩

/-- C6 counterexample context B: bid stop flag set, the existing bid
itself still pre-registered, the ask resting on chain at a healthy
edge. -/
def c6_ctxB : QuoterContext :=
  ⟨1, 0, 1000, some ⟨"bid-50.0-3", OrderSide.BUY, none, "preregistered"⟩,
    some ⟨"ask-50.0-4", OrderSide.SELL, some (201/200), "on_chain"⟩, true, false, 1/5⟩

/-- The context for the C6 witness: bid stop set, priced confirmed bid,
no ask. -/
def c6_witness_ctx : QuoterContext :=
  ⟨1, 0, 1000, some ⟨"bid-50.0-9", OrderSide.BUY, some (199/200), "on_chain"⟩,
    none, true, false, 1/5⟩

/-- The tracking core of a `BotState`: the Position Ledger, the fill
audit log and every tracking map — everything the idempotency claim
constrains (the error log is excluded: a duplicate terminal fill is
re-reported as unattributable). -/
def core (s : BotState) :=
  (s.ledger, s.fill_log, s.active_cloids, s.cloid_to_order_id, s.order_id_to_cloid,
   s.order_sizes, s.preregistered_orders, s.active_orders,
   s.recently_cancelled_order_ids, s.orphaned_order_timestamps)

/-- Terminal order statuses: those whose callback branch runs
`_cleanup_order_tracking`. -/
def is_terminal (st : OrderStatus) : Prop :=
  st = OrderStatus.ORDER_FULLY_FILLED ∨ st = OrderStatus.ORDER_CANCELLED ∨
  st = OrderStatus.ORDER_TIMEOUT ∨ st = OrderStatus.ORDER_FAILED

/-- The bidirectional-map invariant: `cloid_to_order_id` and
`order_id_to_cloid` are mutual inverses (hence each venue id is bound to
at most one cloid). -/
def MutualInverse (f : String → Option ℕ) (g : ℕ → Option String) : Prop :=
  (∀ c v, f c = some v → g v = some c) ∧ (∀ v c, g v = some c → f c = some v)

/-- Compatibility of an event with the current id maps: any venue id the
event carries is not already bound to a different cloid, and its cloid
is not already bound to a different venue id. -/
def event_map_compat (s : BotState) (e : Event) : Prop :=
  ∀ v, e.kuru_order_id = some v →
    (s.order_id_to_cloid v = none ∨ s.order_id_to_cloid v = some e.cloid) ∧
    (s.cloid_to_order_id e.cloid = none ∨ s.cloid_to_order_id e.cloid = some v)

/-- The C9 counterexample state: venue id 1 is bound to cloid "c1" (in
both directions), and the bot also tracks a pending size for cloid
"c2". -/
def c9_s : BotState :=
  ⟨fun _ => false, mupd (fun _ => none) "c1" 1, mupd (fun _ => none) 1 "c1",
   mupd (fun _ => none) "c2" 5, fun _ => none, [], fun _ => none, fun _ => none,
   ⟨0, 0⟩, [], []⟩

/-- The C9 counterexample event: a PLACED confirmation for cloid "c2"
that reuses venue id 1. -/
def c9_e : Event :=
  ⟨"c2", OrderStatus.ORDER_PLACED, some OrderSide.BUY, some 5, some 1, some 1⟩

/-- The C9 witness state: empty id maps, one active cloid. -/
def c9w_s : BotState :=
  ⟨fun _ => false, fun _ => none, fun _ => none, mupd (fun _ => none) "c3" 7,
   fun _ => none, [], fun _ => none, fun _ => none, ⟨0, 0⟩, [], []⟩

/-- The C9 witness event: a PLACED confirmation for "c3" with a fresh
venue id. -/
def c9w_e : Event :=
  ⟨"c3", OrderStatus.ORDER_PLACED, some OrderSide.BUY, some 7, some 1, some 3⟩

/-- The bot state for the C2 witness: one tracked order of size 10 for
cloid "bid-50.0-1". -/
def c2w_s : BotState :=
  ⟨fun _ => false, fun _ => none, fun _ => none, mupd (fun _ => none) "bid-50.0-1" 10,
   fun _ => none, [], fun _ => none, fun _ => none, ⟨0, 0⟩, [], []⟩

/-- The event for the C2 witness: a partial fill leaving 4 remaining at
price 2. -/
def c2w_e : Event :=
  ⟨"bid-50.0-1", OrderStatus.ORDER_PARTIALLY_FILLED, some OrderSide.BUY, some 4, some 2, none⟩

/-- The bot state for the C3 witness: a placed order with venue id 5. -/
def c3w_s : BotState :=
  ⟨sadd (fun _ => false) "bid-50.0-1", mupd (fun _ => none) "bid-50.0-1" 5,
   mupd (fun _ => none) 5 "bid-50.0-1", mupd (fun _ => none) "bid-50.0-1" 10,
   fun _ => none, [], fun _ => none, fun _ => none, ⟨0, 0⟩, [], []⟩

/-- The event for the C3 witness: a cancellation of that order. -/
def c3w_e : Event :=
  ⟨"bid-50.0-1", OrderStatus.ORDER_CANCELLED, some OrderSide.BUY, none, none, some 5⟩

/-- The order batch for the C10 witness: one cancel, one well-formed
buy, one well-formed sell. -/
def c10w_orders : List BatchOrder :=
  [⟨"c", OrderType.CANCEL, none, none, none⟩,
   ⟨"b", OrderType.LIMIT, some OrderSide.BUY, some 3, some 2⟩,
   ⟨"s", OrderType.LIMIT, some OrderSide.SELL, none, some 4⟩]

/-! ## Theorems -/

theorem mdel_mdel {K V : Type} [DecidableEq K] (m : K → Option V) (k : K) :
    mdel (mdel m k) k = mdel m k := by
  funext x; by_cases h : x = k <;> simp [mdel, h]

theorem mdel_eq_self {K V : Type} [DecidableEq K] (m : K → Option V) (k : K)
    (h : m k = none) : mdel m k = m := by
  funext x
  by_cases hx : x = k
  · subst hx; simp [mdel, h]
  · simp [mdel, hx]

theorem mdel_apply_self {K V : Type} [DecidableEq K] (m : K → Option V) (k : K) :
    mdel m k k = none := by simp [mdel]

theorem mdel_apply_ne {K V : Type} [DecidableEq K] (m : K → Option V) (k x : K)
    (h : x ≠ k) : mdel m k x = m x := by simp [mdel, h]

theorem mupd_apply_self {K V : Type} [DecidableEq K] (m : K → Option V) (k : K) (v : V) :
    mupd m k v k = some v := by simp [mupd]

theorem sdel_sdel (s : String → Bool) (x : String) :
    sdel (sdel s x) x = sdel s x := by
  funext y; simp [sdel]

theorem alDel_alDel (m : List (String × OrderInfo)) (k : String) :
    alDel (alDel m k) k = alDel m k := by
  induction m with
  | nil => rfl
  | cons kv t ih =>
      obtain ⟨k', v⟩ := kv
      by_cases h : k' = k
      · simpa [alDel, h] using ih
      · simpa [alDel, h] using ih

theorem alGet_alDel (m : List (String × OrderInfo)) (k : String) :
    alGet (alDel m k) k = none := by
  induction m with
  | nil => rfl
  | cons kv t ih =>
      obtain ⟨k', v⟩ := kv
      by_cases h : k' = k
      · simpa [alDel, h] using ih
      · simpa [alDel, alGet, h] using ih

theorem locked_inventory_foldl (l : List (String × OrderInfo)) (b q : ℚ) :
    l.foldl
      (fun acc kv =>
        match kv.2.side with
        | some OrderSide.BUY => (acc.1, acc.2 + kv.2.size * kv.2.price)
        | _ => (acc.1 + kv.2.size, acc.2))
      (b, q) =
    (b + ((l.filter (fun kv => ¬ kv.2.side = some OrderSide.BUY)).map
        (fun kv => kv.2.size)).sum,
     q + ((l.filter (fun kv => kv.2.side = some OrderSide.BUY)).map
        (fun kv => kv.2.size * kv.2.price)).sum) := by
  induction l generalizing b q with
  | nil => simp
  | cons kv t ih =>
      rcases hside : kv.2.side with _ | side
      · simp only [List.foldl_cons, List.filter_cons, hside]
        simp [ih]
        ring
      · cases side
        · simp only [List.foldl_cons, List.filter_cons, hside]
          simp [ih]
          ring
        · simp only [List.foldl_cons, List.filter_cons, hside]
          simp [ih]
          ring

/-- C4: a reconciliation run reports `drift = (F + L) − T` exactly, where
the locked base `L` is computed purely from the locally tracked resting
orders (each non-buy order contributes its remaining size to locked
base, each buy order contributes `size × price` to locked quote, with no
input other than the local registry); and a second run with identical
inputs reports `drift_delta = 0`. -/
theorem C4_drift_accounting (s : BotState) (F T : ℚ) (last : Option ℚ) :
    (reconcile_position s F T last).1.drift = (F + (get_locked_inventory s).1) - T ∧
    get_locked_inventory s =
      (((s.active_orders.filter (fun kv => ¬ kv.2.side = some OrderSide.BUY)).map
          (fun kv => kv.2.size)).sum,
       ((s.active_orders.filter (fun kv => kv.2.side = some OrderSide.BUY)).map
          (fun kv => kv.2.size * kv.2.price)).sum) ∧
    (reconcile_position s F T ((reconcile_position s F T last).2)).1.drift_delta = 0 := by
  refine ⟨rfl, ?_, ?_⟩
  · simpa using locked_inventory_foldl s.active_orders 0 0
  · simp [reconcile_position]

/-- C7: failing input for the skew-direction half of the claim.  With
baseline 50bps and entry/exit skew 0.5, moving the clamped inventory
proportion from −0.1 to −0.2 (raising its magnitude while short) makes
the ask edge — the entry side for a short position — strictly NARROWER
(47.5 → 45bps) and the bid edge — the exit side — strictly WIDER
(52.5 → 55bps), the opposite of the claimed monotonicity; the code here
also contradicts its own inline comment ("tighten bids, widen asks" when
short) and the sibling `Quoter.get_bid_ask_edges` formula. -/
theorem C7_short_skew_failing_input :
    get_skewed_edges ⟨"50.0", 100, 50, 1/2, 1/2⟩
      ⟨1, -100, 1000, none, none, false, false, 1/5⟩ = (105/2, 95/2) ∧
    get_skewed_edges ⟨"50.0", 100, 50, 1/2, 1/2⟩
      ⟨1, -200, 1000, none, none, false, false, 1/5⟩ = (55, 45) ∧
    (get_skewed_edges ⟨"50.0", 100, 50, 1/2, 1/2⟩
        ⟨1, -200, 1000, none, none, false, false, 1/5⟩).2 <
      (get_skewed_edges ⟨"50.0", 100, 50, 1/2, 1/2⟩
        ⟨1, -100, 1000, none, none, false, false, 1/5⟩).2 ∧
    (get_skewed_edges ⟨"50.0", 100, 50, 1/2, 1/2⟩
        ⟨1, -100, 1000, none, none, false, false, 1/5⟩).1 <
      (get_skewed_edges ⟨"50.0", 100, 50, 1/2, 1/2⟩
        ⟨1, -200, 1000, none, none, false, false, 1/5⟩).1 := by
  refine ⟨?_, ?_, ?_, ?_⟩ <;> norm_num [get_skewed_edges]

/-- C8: with position 0, maxPosition 1000, baseline edge 50bps and
entry/exit skew both 0.5 the computed bid and ask edges are both exactly
50bps; processing a BUY fill of size 100 at price 1.0 through the
position tracker yields base position +100 and quote cash flow −100, and
with that position the edges become exactly 52.5bps (bid) and 47.5bps
(ask). -/
theorem C8_skew_fill_scenario :
    get_skewed_edges ⟨"50.0", 100, 50, 1/2, 1/2⟩
      ⟨1, 0, 1000, none, none, false, false, 1/5⟩ = (50, 50) ∧
    update_position ⟨0, 0⟩ (some OrderSide.BUY) 100 1 = ⟨100, -100⟩ ∧
    get_skewed_edges ⟨"50.0", 100, 50, 1/2, 1/2⟩
      ⟨1, (update_position ⟨0, 0⟩ (some OrderSide.BUY) 100 1).current_position,
        1000, none, none, false, false, 1/5⟩ = (105/2, 95/2) := by
  refine ⟨?_, ?_, ?_⟩ <;> norm_num [get_skewed_edges, update_position]

theorem evaluate_true_cancel (ex : ExistingOrder) (side : OrderSide) (thr ref : ℚ)
    (stop : Bool) (h : (evaluate_existing_order (some ex) side thr ref stop).1 = true) :
    (evaluate_existing_order (some ex) side thr ref stop).2 = some ex.cloid := by
  unfold evaluate_existing_order at h ⊢
  by_cases h1 : ex.source = "preregistered"
  · simp [h1] at h
  · by_cases h2 : ex.source = "unknown"
    · simp [h1, h2] at h
    · rcases hp : ex.price with _ | p
      · simp [h1, h2, hp] at h
      · cases stop
        · by_cases hedge : calculate_order_edge p side ref ≥ thr
          · simp [h1, h2, hp, hedge] at h
          · simp [h1, h2, hp, hedge]
        · simp [h1, h2, hp]

theorem decide_evaluate_need_bid (q : SkewQuoter) (ctx : QuoterContext) :
    (decide_evaluate q ctx).1 =
      (evaluate_existing_order ctx.existing_bid OrderSide.BUY (cancel_thresholds q ctx).1
        ctx.reference_price ctx.stop_bids).1 := rfl

theorem decide_evaluate_need_ask (q : SkewQuoter) (ctx : QuoterContext) :
    (decide_evaluate q ctx).2.1 =
      (evaluate_existing_order ctx.existing_ask OrderSide.SELL (cancel_thresholds q ctx).2
        ctx.reference_price ctx.stop_asks).1 := rfl

theorem decide_evaluate_cancels (q : SkewQuoter) (ctx : QuoterContext) :
    (decide_evaluate q ctx).2.2 =
      (match (evaluate_existing_order ctx.existing_bid OrderSide.BUY (cancel_thresholds q ctx).1
          ctx.reference_price ctx.stop_bids).2 with
        | some c => [c]
        | none => []) ++
      (match (evaluate_existing_order ctx.existing_ask OrderSide.SELL (cancel_thresholds q ctx).2
          ctx.reference_price ctx.stop_asks).2 with
        | some c => [c]
        | none => []) := rfl

theorem need_bid_cancel_mem (q : SkewQuoter) (ctx : QuoterContext) (ex : ExistingOrder)
    (hex : ctx.existing_bid = some ex) (h : (decide_evaluate q ctx).1 = true) :
    ex.cloid ∈ (decide_evaluate q ctx).2.2 := by
  rw [decide_evaluate_need_bid, hex] at h
  rw [decide_evaluate_cancels, hex, evaluate_true_cancel ex OrderSide.BUY _ _ _ h]
  simp

theorem need_ask_cancel_mem (q : SkewQuoter) (ctx : QuoterContext) (ex : ExistingOrder)
    (hex : ctx.existing_ask = some ex) (h : (decide_evaluate q ctx).2.1 = true) :
    ex.cloid ∈ (decide_evaluate q ctx).2.2 := by
  rw [decide_evaluate_need_ask, hex] at h
  rw [decide_evaluate_cancels, hex, evaluate_true_cancel ex OrderSide.SELL _ _ _ h]
  simp

theorem decide_finish_cancels (q : SkewQuoter) (now : ℕ) (ctx : QuoterContext)
    (nb na : Bool) (cs : List String) :
    (decide_finish q now ctx nb na cs).cancels = cs := rfl

theorem decide_finish_buy_need (q : SkewQuoter) (now : ℕ) (ctx : QuoterContext)
    (nb na : Bool) (cs : List String)
    (h : ∃ o ∈ (decide_finish q now ctx nb na cs).new_orders, o.side = OrderSide.BUY) :
    nb = true := by
  cases nb
  · exfalso
    rcases h with ⟨o, ho, hside⟩
    by_cases hna : (na && !ctx.stop_asks) = true
    · simp [decide_finish, hna] at ho
      subst ho
      simp at hside
    · simp [decide_finish, hna] at ho
  · rfl

theorem decide_finish_sell_need (q : SkewQuoter) (now : ℕ) (ctx : QuoterContext)
    (nb na : Bool) (cs : List String)
    (h : ∃ o ∈ (decide_finish q now ctx nb na cs).new_orders, o.side = OrderSide.SELL) :
    na = true := by
  cases na
  · exfalso
    rcases h with ⟨o, ho, hside⟩
    by_cases hnb : (nb && !ctx.stop_bids) = true
    · simp [decide_finish, hnb] at ho
      subst ho
      simp at hside
    · simp [decide_finish, hnb] at ho
  · rfl

theorem decide_eq_defer_ask (q : SkewQuoter) (now : ℕ) (ctx : QuoterContext) (ex0 : ExistingOrder)
    (hb1 : (decide_evaluate q ctx).1 = true) (hb2 : (decide_evaluate q ctx).2.1 = false)
    (hask : ctx.existing_ask = some ex0) (hsrc : ex0.source = "preregistered") :
    SkewQuoter.decide q now ctx = ⟨[], []⟩ := by
  simp [SkewQuoter.decide, hb1, hb2, hask, hsrc]

theorem decide_eq_couple_ask (q : SkewQuoter) (now : ℕ) (ctx : QuoterContext) (ex0 : ExistingOrder)
    (hb1 : (decide_evaluate q ctx).1 = true) (hb2 : (decide_evaluate q ctx).2.1 = false)
    (hask : ctx.existing_ask = some ex0) (hsrc : ¬ ex0.source = "preregistered") :
    SkewQuoter.decide q now ctx =
      decide_finish q now ctx true true
        (if ex0.cloid ∈ (decide_evaluate q ctx).2.2 then (decide_evaluate q ctx).2.2
         else (decide_evaluate q ctx).2.2 ++ [ex0.cloid]) := by
  simp [SkewQuoter.decide, hb1, hb2, hask, hsrc]

theorem decide_eq_couple_ask_none (q : SkewQuoter) (now : ℕ) (ctx : QuoterContext)
    (hb1 : (decide_evaluate q ctx).1 = true) (hb2 : (decide_evaluate q ctx).2.1 = false)
    (hask : ctx.existing_ask = none) :
    SkewQuoter.decide q now ctx =
      decide_finish q now ctx true true (decide_evaluate q ctx).2.2 := by
  simp [SkewQuoter.decide, hb1, hb2, hask]

theorem decide_eq_defer_bid (q : SkewQuoter) (now : ℕ) (ctx : QuoterContext) (ex0 : ExistingOrder)
    (hb1 : (decide_evaluate q ctx).1 = false) (hb2 : (decide_evaluate q ctx).2.1 = true)
    (hbid : ctx.existing_bid = some ex0) (hsrc : ex0.source = "preregistered") :
    SkewQuoter.decide q now ctx = ⟨[], []⟩ := by
  simp [SkewQuoter.decide, hb1, hb2, hbid, hsrc]

theorem decide_eq_couple_bid (q : SkewQuoter) (now : ℕ) (ctx : QuoterContext) (ex0 : ExistingOrder)
    (hb1 : (decide_evaluate q ctx).1 = false) (hb2 : (decide_evaluate q ctx).2.1 = true)
    (hbid : ctx.existing_bid = some ex0) (hsrc : ¬ ex0.source = "preregistered") :
    SkewQuoter.decide q now ctx =
      decide_finish q now ctx true true
        (if ex0.cloid ∈ (decide_evaluate q ctx).2.2 then (decide_evaluate q ctx).2.2
         else (decide_evaluate q ctx).2.2 ++ [ex0.cloid]) := by
  simp [SkewQuoter.decide, hb1, hb2, hbid, hsrc]

theorem decide_eq_couple_bid_none (q : SkewQuoter) (now : ℕ) (ctx : QuoterContext)
    (hb1 : (decide_evaluate q ctx).1 = false) (hb2 : (decide_evaluate q ctx).2.1 = true)
    (hbid : ctx.existing_bid = none) :
    SkewQuoter.decide q now ctx =
      decide_finish q now ctx true true (decide_evaluate q ctx).2.2 := by
  simp [SkewQuoter.decide, hb1, hb2, hbid]

theorem decide_eq_plain (q : SkewQuoter) (now : ℕ) (ctx : QuoterContext)
    (heq : (decide_evaluate q ctx).1 = (decide_evaluate q ctx).2.1) :
    SkewQuoter.decide q now ctx =
      decide_finish q now ctx (decide_evaluate q ctx).1 (decide_evaluate q ctx).2.1
        (decide_evaluate q ctx).2.2 := by
  cases hb1 : (decide_evaluate q ctx).1 <;> rw [hb1] at heq <;>
    simp [SkewQuoter.decide, hb1, heq.symm]

theorem decide_replaced_cancels_other (q : SkewQuoter) (now : ℕ) (ctx : QuoterContext) :
    ((∃ o ∈ (SkewQuoter.decide q now ctx).new_orders, o.side = OrderSide.BUY) →
      ∀ ex, ctx.existing_ask = some ex → ex.cloid ∈ (SkewQuoter.decide q now ctx).cancels) ∧
    ((∃ o ∈ (SkewQuoter.decide q now ctx).new_orders, o.side = OrderSide.SELL) →
      ∀ ex, ctx.existing_bid = some ex → ex.cloid ∈ (SkewQuoter.decide q now ctx).cancels) := by
  cases hb1 : (decide_evaluate q ctx).1 <;> cases hb2 : (decide_evaluate q ctx).2.1
  · -- need_bid = false, need_ask = false: plain finish, no new orders
    rw [decide_eq_plain q now ctx (by rw [hb1, hb2]), hb1, hb2]
    constructor <;>
      · intro hnew
        rcases hnew with ⟨o, ho, _⟩
        simp [decide_finish] at ho
  · -- need_bid = false, need_ask = true: coupling branch 2
    rcases hbid : ctx.existing_bid with _ | ex0
    · rw [decide_eq_couple_bid_none q now ctx hb1 hb2 hbid]
      constructor
      · intro _ ex hex
        rw [decide_finish_cancels]
        exact need_ask_cancel_mem q ctx ex hex hb2
      · intro _ ex hex
        exact Option.noConfusion hex
    · by_cases hsrc : ex0.source = "preregistered"
      · rw [decide_eq_defer_bid q now ctx ex0 hb1 hb2 hbid hsrc]
        constructor <;>
          · intro hnew
            rcases hnew with ⟨o, ho, _⟩
            simp at ho
      · rw [decide_eq_couple_bid q now ctx ex0 hb1 hb2 hbid hsrc]
        constructor
        · intro _ ex hex
          have hm := need_ask_cancel_mem q ctx ex hex hb2
          rw [decide_finish_cancels]
          by_cases hmem : ex0.cloid ∈ (decide_evaluate q ctx).2.2
          · rw [if_pos hmem]; exact hm
          · rw [if_neg hmem]; exact List.mem_append_left _ hm
        · intro _ ex hex
          have hee : ex = ex0 := by
            injection hex with h
            exact h.symm
          rw [hee, decide_finish_cancels]
          by_cases hmem : ex0.cloid ∈ (decide_evaluate q ctx).2.2
          · rw [if_pos hmem]; exact hmem
          · rw [if_neg hmem]; simp
  · -- need_bid = true, need_ask = false: coupling branch 1
    rcases hask : ctx.existing_ask with _ | ex0
    · rw [decide_eq_couple_ask_none q now ctx hb1 hb2 hask]
      constructor
      · intro _ ex hex
        exact Option.noConfusion hex
      · intro _ ex hex
        rw [decide_finish_cancels]
        exact need_bid_cancel_mem q ctx ex hex hb1
    · by_cases hsrc : ex0.source = "preregistered"
      · rw [decide_eq_defer_ask q now ctx ex0 hb1 hb2 hask hsrc]
        constructor <;>
          · intro hnew
            rcases hnew with ⟨o, ho, _⟩
            simp at ho
      · rw [decide_eq_couple_ask q now ctx ex0 hb1 hb2 hask hsrc]
        constructor
        · intro _ ex hex
          have hee : ex = ex0 := by
            injection hex with h
            exact h.symm
          rw [hee, decide_finish_cancels]
          by_cases hmem : ex0.cloid ∈ (decide_evaluate q ctx).2.2
          · rw [if_pos hmem]; exact hmem
          · rw [if_neg hmem]; simp
        · intro _ ex hex
          have hm := need_bid_cancel_mem q ctx ex hex hb1
          rw [decide_finish_cancels]
          by_cases hmem : ex0.cloid ∈ (decide_evaluate q ctx).2.2
          · rw [if_pos hmem]; exact hm
          · rw [if_neg hmem]; exact List.mem_append_left _ hm
  · -- need_bid = true, need_ask = true: plain finish, both cancels recorded
    rw [decide_eq_plain q now ctx (by rw [hb1, hb2])]
    constructor
    · intro _ ex hex
      rw [decide_finish_cancels]
      exact need_ask_cancel_mem q ctx ex hex hb2
    · intro _ ex hex
      rw [decide_finish_cancels]
      exact need_bid_cancel_mem q ctx ex hex hb1

/-- C5: the coupling invariant of `SkewQuoter.decide`.  Whenever the
decision emits a new order on one side, any existing order of the
opposite side is in the cancel set — so the decision never leaves one
side freshly replaced while the other retains a resting order below its
own cancel threshold (the untouched side retains no order at all); and
when the decision is deferred because exactly one side needed
replacement while the untouched side is still pre-registered, the
quoter emits no cancels and no new orders this cycle. -/
theorem C5_coupling_invariant (q : SkewQuoter) (now : ℕ) (ctx : QuoterContext) :
    (decide_deferred q ctx → SkewQuoter.decide q now ctx = ⟨[], []⟩) ∧
    ((∃ o ∈ (SkewQuoter.decide q now ctx).new_orders, o.side = OrderSide.BUY) →
      ∀ ex, ctx.existing_ask = some ex → ex.cloid ∈ (SkewQuoter.decide q now ctx).cancels) ∧
    ((∃ o ∈ (SkewQuoter.decide q now ctx).new_orders, o.side = OrderSide.SELL) →
      ∀ ex, ctx.existing_bid = some ex → ex.cloid ∈ (SkewQuoter.decide q now ctx).cancels) := by
  refine ⟨?_, (decide_replaced_cancels_other q now ctx).1,
    (decide_replaced_cancels_other q now ctx).2⟩
  intro hdef
  rcases hdef with ⟨h1, h2, ex, hex, hsrc⟩ | ⟨h1, h2, ex, hex, hsrc⟩
  · exact decide_eq_defer_ask q now ctx ex h1 h2 hex hsrc
  · exact decide_eq_defer_bid q now ctx ex h2 h1 hex hsrc

/-- Witness for C5: in `c5_witness_ctx` the decision emits a new bid and
indeed cancels the existing ask. -/
theorem C5_coupling_invariant_witness :
    (∃ o ∈ (SkewQuoter.decide ⟨"50.0", 100, 50, 1/2, 1/2⟩ 7 c5_witness_ctx).new_orders,
      o.side = OrderSide.BUY) ∧
    "ask-50.0-1" ∈ (SkewQuoter.decide ⟨"50.0", 100, 50, 1/2, 1/2⟩ 7 c5_witness_ctx).cancels := by
  have hbuy : ∃ o ∈ (SkewQuoter.decide ⟨"50.0", 100, 50, 1/2, 1/2⟩ 7 c5_witness_ctx).new_orders,
      o.side = OrderSide.BUY := by
    simp [SkewQuoter.decide, decide_evaluate, evaluate_existing_order, decide_finish,
      c5_witness_ctx]
  exact ⟨hbuy, (C5_coupling_invariant ⟨"50.0", 100, 50, 1/2, 1/2⟩ 7 c5_witness_ctx).2.1 hbuy
    ⟨"ask-50.0-1", OrderSide.SELL, some 2, "on_chain"⟩ rfl⟩

theorem evaluate_stop_cancel (ex : ExistingOrder) (side : OrderSide) (thr ref : ℚ) (p : ℚ)
    (hp : ex.price = some p) (h1 : ex.source ≠ "preregistered") (h2 : ex.source ≠ "unknown") :
    evaluate_existing_order (some ex) side thr ref true = (true, some ex.cloid) := by
  simp [evaluate_existing_order, h1, h2, hp]

theorem decide_finish_no_buy (q : SkewQuoter) (now : ℕ) (ctx : QuoterContext)
    (nb na : Bool) (cs : List String) (hstop : ctx.stop_bids = true) :
    ∀ o ∈ (decide_finish q now ctx nb na cs).new_orders, o.side ≠ OrderSide.BUY := by
  intro o ho
  by_cases hna : (na && !ctx.stop_asks) = true <;>
    simp [decide_finish, hstop, hna] at ho
  subst ho
  simp

theorem decide_finish_no_sell (q : SkewQuoter) (now : ℕ) (ctx : QuoterContext)
    (nb na : Bool) (cs : List String) (hstop : ctx.stop_asks = true) :
    ∀ o ∈ (decide_finish q now ctx nb na cs).new_orders, o.side ≠ OrderSide.SELL := by
  intro o ho
  by_cases hnb : (nb && !ctx.stop_bids) = true <;>
    simp [decide_finish, hstop, hnb] at ho
  subst ho
  simp

theorem decide_cases (q : SkewQuoter) (now : ℕ) (ctx : QuoterContext) :
    SkewQuoter.decide q now ctx = ⟨[], []⟩ ∨
    ∃ nb na cs, SkewQuoter.decide q now ctx = decide_finish q now ctx nb na cs := by
  cases hb1 : (decide_evaluate q ctx).1 <;> cases hb2 : (decide_evaluate q ctx).2.1
  · exact Or.inr ⟨_, _, _, decide_eq_plain q now ctx (by rw [hb1, hb2])⟩
  · rcases hbid : ctx.existing_bid with _ | ex0
    · exact Or.inr ⟨_, _, _, decide_eq_couple_bid_none q now ctx hb1 hb2 hbid⟩
    · by_cases hsrc : ex0.source = "preregistered"
      · exact Or.inl (decide_eq_defer_bid q now ctx ex0 hb1 hb2 hbid hsrc)
      · exact Or.inr ⟨_, _, _, decide_eq_couple_bid q now ctx ex0 hb1 hb2 hbid hsrc⟩
  · rcases hask : ctx.existing_ask with _ | ex0
    · exact Or.inr ⟨_, _, _, decide_eq_couple_ask_none q now ctx hb1 hb2 hask⟩
    · by_cases hsrc : ex0.source = "preregistered"
      · exact Or.inl (decide_eq_defer_ask q now ctx ex0 hb1 hb2 hask hsrc)
      · exact Or.inr ⟨_, _, _, decide_eq_couple_ask q now ctx ex0 hb1 hb2 hask hsrc⟩
  · exact Or.inr ⟨_, _, _, decide_eq_plain q now ctx (by rw [hb1, hb2])⟩

theorem decide_stop_bids_no_buy (q : SkewQuoter) (now : ℕ) (ctx : QuoterContext)
    (hstop : ctx.stop_bids = true) :
    ∀ o ∈ (SkewQuoter.decide q now ctx).new_orders, o.side ≠ OrderSide.BUY := by
  rcases decide_cases q now ctx with h | ⟨nb, na, cs, h⟩
  · rw [h]; intro o ho; simp at ho
  · rw [h]; exact decide_finish_no_buy q now ctx nb na cs hstop

theorem decide_stop_asks_no_sell (q : SkewQuoter) (now : ℕ) (ctx : QuoterContext)
    (hstop : ctx.stop_asks = true) :
    ∀ o ∈ (SkewQuoter.decide q now ctx).new_orders, o.side ≠ OrderSide.SELL := by
  rcases decide_cases q now ctx with h | ⟨nb, na, cs, h⟩
  · rw [h]; intro o ho; simp at ho
  · rw [h]; exact decide_finish_no_sell q now ctx nb na cs hstop

theorem stop_bid_cancel_mem (q : SkewQuoter) (now : ℕ) (ctx : QuoterContext)
    (ex : ExistingOrder) (p : ℚ) (hex : ctx.existing_bid = some ex) (hp : ex.price = some p)
    (h1 : ex.source ≠ "preregistered") (h2 : ex.source ≠ "unknown")
    (hstop : ctx.stop_bids = true) (hdef : ¬ decide_deferred q ctx) :
    ex.cloid ∈ (SkewQuoter.decide q now ctx).cancels := by
  have hb1 : (decide_evaluate q ctx).1 = true := by
    rw [decide_evaluate_need_bid, hex, hstop,
      evaluate_stop_cancel ex OrderSide.BUY _ _ p hp h1 h2]
  have hmem := need_bid_cancel_mem q ctx ex hex hb1
  cases hb2 : (decide_evaluate q ctx).2.1
  · rcases hask : ctx.existing_ask with _ | ex0
    · rw [decide_eq_couple_ask_none q now ctx hb1 hb2 hask, decide_finish_cancels]
      exact hmem
    · by_cases hsrc : ex0.source = "preregistered"
      · exact absurd (Or.inl ⟨hb1, hb2, ex0, hask, hsrc⟩) hdef
      · rw [decide_eq_couple_ask q now ctx ex0 hb1 hb2 hask hsrc, decide_finish_cancels]
        by_cases hm0 : ex0.cloid ∈ (decide_evaluate q ctx).2.2
        · rw [if_pos hm0]; exact hmem
        · rw [if_neg hm0]; exact List.mem_append_left _ hmem
  · rw [decide_eq_plain q now ctx (by rw [hb1, hb2]), decide_finish_cancels]
    exact hmem

theorem stop_ask_cancel_mem (q : SkewQuoter) (now : ℕ) (ctx : QuoterContext)
    (ex : ExistingOrder) (p : ℚ) (hex : ctx.existing_ask = some ex) (hp : ex.price = some p)
    (h1 : ex.source ≠ "preregistered") (h2 : ex.source ≠ "unknown")
    (hstop : ctx.stop_asks = true) (hdef : ¬ decide_deferred q ctx) :
    ex.cloid ∈ (SkewQuoter.decide q now ctx).cancels := by
  have hb2 : (decide_evaluate q ctx).2.1 = true := by
    rw [decide_evaluate_need_ask, hex, hstop,
      evaluate_stop_cancel ex OrderSide.SELL _ _ p hp h1 h2]
  have hmem := need_ask_cancel_mem q ctx ex hex hb2
  cases hb1 : (decide_evaluate q ctx).1
  · rcases hbid : ctx.existing_bid with _ | ex0
    · rw [decide_eq_couple_bid_none q now ctx hb1 hb2 hbid, decide_finish_cancels]
      exact hmem
    · by_cases hsrc : ex0.source = "preregistered"
      · exact absurd (Or.inr ⟨hb2, hb1, ex0, hbid, hsrc⟩) hdef
      · rw [decide_eq_couple_bid q now ctx ex0 hb1 hb2 hbid hsrc, decide_finish_cancels]
        by_cases hm0 : ex0.cloid ∈ (decide_evaluate q ctx).2.2
        · rw [if_pos hm0]; exact hmem
        · rw [if_neg hm0]; exact List.mem_append_left _ hmem
  · rw [decide_eq_plain q now ctx (by rw [hb1, hb2]), decide_finish_cancels]
    exact hmem

/-- C6 counterexample: the claim says a set stop flag makes the decision
unconditionally cancel that side's existing order.  In context A
(priced, confirmed bid under a bid stop, ask still pre-registered) the
coupling rule defers and the decision is empty — the stopped bid is not
cancelled; in context B (the stopped bid itself pre-registered, ask
healthy) the decision is also empty.  In both, `stop_bids` is set and an
existing bid is present, yet no cancel is emitted. -/
theorem C6_counterexample :
    (c6_ctxA.stop_bids = true ∧ c6_ctxA.existing_bid.isSome = true ∧
      SkewQuoter.decide c6_q 1 c6_ctxA = ⟨[], []⟩) ∧
    (c6_ctxB.stop_bids = true ∧ c6_ctxB.existing_bid.isSome = true ∧
      SkewQuoter.decide c6_q 1 c6_ctxB = ⟨[], []⟩) := by
  refine ⟨⟨rfl, rfl, ?_⟩, ⟨rfl, rfl, ?_⟩⟩
  · have hb1 : (decide_evaluate c6_q c6_ctxA).1 = true := by
      simp [decide_evaluate, evaluate_existing_order, c6_ctxA, c6_q]
    have hb2 : (decide_evaluate c6_q c6_ctxA).2.1 = false := by
      simp [decide_evaluate, evaluate_existing_order, c6_ctxA, c6_q]
    exact decide_eq_defer_ask c6_q 1 c6_ctxA _ hb1 hb2 rfl rfl
  · have hb1 : (decide_evaluate c6_q c6_ctxB).1 = false := by
      simp [decide_evaluate, evaluate_existing_order, c6_ctxB, c6_q]
    have hb2 : (decide_evaluate c6_q c6_ctxB).2.1 = false := by
      norm_num [decide_evaluate, evaluate_existing_order, c6_ctxB, c6_q,
        cancel_thresholds, get_skewed_edges, calculate_order_edge]
    have hc : (decide_evaluate c6_q c6_ctxB).2.2 = [] := by
      norm_num [decide_evaluate, evaluate_existing_order, c6_ctxB, c6_q,
        cancel_thresholds, get_skewed_edges, calculate_order_edge]
    rw [decide_eq_plain c6_q 1 c6_ctxB (by rw [hb1, hb2]), hb1, hb2, hc]
    simp [decide_finish, c6_ctxB]

/-- C6 (amended): if a side's stop flag is set, `SkewQuoter.decide`
generates no replacement order for that side; and it cancels that
side's existing order regardless of its current edge, provided the
existing order carries a known price from a confirmed source (neither
pre-registered nor unknown) and the decision is not deferred by the
coupling rule (the opposite side still pre-registered while only one
side needed replacement). -/
theorem C6_stop_flag_amended (q : SkewQuoter) (now : ℕ) (ctx : QuoterContext) :
    (ctx.stop_bids = true →
      (∀ o ∈ (SkewQuoter.decide q now ctx).new_orders, o.side ≠ OrderSide.BUY) ∧
      ∀ ex p, ctx.existing_bid = some ex → ex.price = some p →
        ex.source ≠ "preregistered" → ex.source ≠ "unknown" →
        ¬ decide_deferred q ctx →
        ex.cloid ∈ (SkewQuoter.decide q now ctx).cancels) ∧
    (ctx.stop_asks = true →
      (∀ o ∈ (SkewQuoter.decide q now ctx).new_orders, o.side ≠ OrderSide.SELL) ∧
      ∀ ex p, ctx.existing_ask = some ex → ex.price = some p →
        ex.source ≠ "preregistered" → ex.source ≠ "unknown" →
        ¬ decide_deferred q ctx →
        ex.cloid ∈ (SkewQuoter.decide q now ctx).cancels) := by
  constructor
  · intro hstop
    refine ⟨decide_stop_bids_no_buy q now ctx hstop, ?_⟩
    intro ex p hex hp h1 h2 hdef
    exact stop_bid_cancel_mem q now ctx ex p hex hp h1 h2 hstop hdef
  · intro hstop
    refine ⟨decide_stop_asks_no_sell q now ctx hstop, ?_⟩
    intro ex p hex hp h1 h2 hdef
    exact stop_ask_cancel_mem q now ctx ex p hex hp h1 h2 hstop hdef

/-- Witness for the amended C6: in `c6_witness_ctx` the stopped bid is
cancelled and no buy order is generated. -/
theorem C6_stop_flag_amended_witness :
    c6_witness_ctx.stop_bids = true ∧
    (¬ decide_deferred c6_q c6_witness_ctx) ∧
    "bid-50.0-9" ∈ (SkewQuoter.decide c6_q 1 c6_witness_ctx).cancels ∧
    ∀ o ∈ (SkewQuoter.decide c6_q 1 c6_witness_ctx).new_orders, o.side ≠ OrderSide.BUY := by
  have hdef : ¬ decide_deferred c6_q c6_witness_ctx := by
    simp [decide_deferred, decide_evaluate, evaluate_existing_order, c6_q, c6_witness_ctx]
  have hmain := (C6_stop_flag_amended c6_q 1 c6_witness_ctx).1 rfl
  exact ⟨rfl, hdef,
    hmain.2 ⟨"bid-50.0-9", OrderSide.BUY, some (199/200), "on_chain"⟩ (199/200) rfl rfl
      (by simp) (by simp) hdef,
    hmain.1⟩

/-- C1: for an order pre-registered with size `S` that receives a
FULLY_FILLED event (reported remaining size 0) before any PLACED event,
the order callback computes the filled size as exactly the
pre-registered size `S`: the Position Ledger is fed exactly one fill of
size `S` (the fill log grows by that single entry, no double-count and
no missed count) and the order is cleared from both size-tracking
maps. -/
theorem C1_preregistration_race (s : BotState) (cloid : String) (S t price now : ℚ)
    (side : OrderSide) (oid : Option ℕ) :
    (order_callback now (preregister_order s cloid S t)
        ⟨cloid, OrderStatus.ORDER_FULLY_FILLED, some side, some 0, some price, oid⟩).fill_log =
      s.fill_log ++ [⟨some side, S, price⟩] ∧
    (order_callback now (preregister_order s cloid S t)
        ⟨cloid, OrderStatus.ORDER_FULLY_FILLED, some side, some 0, some price, oid⟩).ledger =
      update_position s.ledger (some side) S price ∧
    (order_callback now (preregister_order s cloid S t)
        ⟨cloid, OrderStatus.ORDER_FULLY_FILLED, some side, some 0, some price, oid⟩).order_sizes
        cloid = none ∧
    (order_callback now (preregister_order s cloid S t)
        ⟨cloid, OrderStatus.ORDER_FULLY_FILLED, some side, some 0, some price, oid⟩).preregistered_orders
        cloid = none := by
  have hour : is_our_order (preregister_order s cloid S t)
      ⟨cloid, OrderStatus.ORDER_FULLY_FILLED, some side, some 0, some price, oid⟩ := by
    right; left
    simp [preregister_order, mupd]
  simp only [order_callback, if_pos hour]
  rcases oid with _ | o <;> rcases hc : s.cloid_to_order_id cloid with _ | v <;>
    simp [handleFullyFilled, applyFill, cleanup_order_tracking, preregister_order,
      mupd, mdel, update_position, sub_zero, hc]

/-- C2: for every PARTIALLY_FILLED or FULLY_FILLED event that passes the
ownership filter, the filled quantity is computed as
`previousKnownSize − reportedRemainingSize`, where `previousKnownSize`
is read from the order-size map or, failing that, the pre-registration
map, and the Position Ledger is fed exactly once with that quantity; if
neither map holds the cloid, the event is logged as an error and the
Position Ledger (and fill log) are left unchanged — the handler,
modelled as a total function, does not raise. -/
theorem C2_fill_quantity_attribution (s : BotState) (e : Event) (now : ℚ)
    (hour : is_our_order s e)
    (hst : e.status = OrderStatus.ORDER_PARTIALLY_FILLED ∨
      e.status = OrderStatus.ORDER_FULLY_FILLED) :
    (∀ prev, s.order_sizes e.cloid = some prev →
      (order_callback now s e).fill_log =
        s.fill_log ++ [⟨e.side, prev - e.size.getD 0, e.price.getD 0⟩] ∧
      (order_callback now s e).ledger =
        update_position s.ledger e.side (prev - e.size.getD 0) (e.price.getD 0)) ∧
    (∀ prev t0, s.order_sizes e.cloid = none →
      s.preregistered_orders e.cloid = some (prev, t0) →
      (order_callback now s e).fill_log =
        s.fill_log ++ [⟨e.side, prev - e.size.getD 0, e.price.getD 0⟩] ∧
      (order_callback now s e).ledger =
        update_position s.ledger e.side (prev - e.size.getD 0) (e.price.getD 0)) ∧
    (s.order_sizes e.cloid = none → s.preregistered_orders e.cloid = none →
      (order_callback now s e).fill_log = s.fill_log ∧
      (order_callback now s e).ledger = s.ledger ∧
      (order_callback now s e).error_log = s.error_log ++ [e.cloid]) := by
  rcases hst with hst | hst
  · refine ⟨?_, ?_, ?_⟩
    · intro prev hprev
      simp only [order_callback, if_pos hour, hst]
      rcases halg : alGet s.active_orders e.cloid with _ | oi <;>
        simp [handlePartiallyFilled, hprev, halg, applyFill]
    · intro prev t0 hsz hpre
      simp only [order_callback, if_pos hour, hst]
      rcases halg : alGet s.active_orders e.cloid with _ | oi <;>
        simp [handlePartiallyFilled, hsz, hpre, halg, applyFill]
    · intro hsz hpre
      simp only [order_callback, if_pos hour, hst]
      simp [handlePartiallyFilled, hsz, hpre]
  · refine ⟨?_, ?_, ?_⟩
    · intro prev hprev
      simp only [order_callback, if_pos hour, hst]
      rcases hoid : e.kuru_order_id with _ | o <;>
        rcases hc : s.cloid_to_order_id e.cloid with _ | v <;>
        simp [handleFullyFilled, hprev, applyFill, cleanup_order_tracking, hoid, hc]
    · intro prev t0 hsz hpre
      simp only [order_callback, if_pos hour, hst]
      rcases hoid : e.kuru_order_id with _ | o <;>
        rcases hc : s.cloid_to_order_id e.cloid with _ | v <;>
        simp [handleFullyFilled, hsz, hpre, applyFill, cleanup_order_tracking, hoid, hc]
    · intro hsz hpre
      simp only [order_callback, if_pos hour, hst]
      rcases hoid : e.kuru_order_id with _ | o <;>
        rcases hc : s.cloid_to_order_id e.cloid with _ | v <;>
        simp [handleFullyFilled, hsz, hpre, cleanup_order_tracking, hoid, hc]

theorem cleanup_cleanup_core (now1 now2 : ℚ) (s : BotState) (c : String) (oid : Option ℕ)
    (m1 m2 : Bool) :
    core (cleanup_order_tracking now2 (cleanup_order_tracking now1 s c oid m1) c oid m2) =
      core (cleanup_order_tracking now1 s c oid m1) := by
  rcases hc : s.cloid_to_order_id c with _ | v <;> rcases oid with _ | o <;>
    cases m1 <;> cases m2 <;>
    simp [cleanup_order_tracking, core, hc, mdel_mdel, sdel_sdel, alDel_alDel,
      mdel_apply_self, mupd, mdel, sdel]

theorem cleanup_core_error (now : ℚ) (s : BotState) (X : List String) (c : String)
    (oid : Option ℕ) (m : Bool) :
    core (cleanup_order_tracking now { s with error_log := X } c oid m) =
      core (cleanup_order_tracking now s c oid m) := by
  rcases hc : s.cloid_to_order_id c with _ | v <;> rcases oid with _ | o <;> cases m <;>
    simp [cleanup_order_tracking, core, hc]

theorem cleanup_order_sizes_none (now : ℚ) (s : BotState) (c : String) (oid : Option ℕ)
    (m : Bool) : (cleanup_order_tracking now s c oid m).order_sizes c = none := by
  rcases hc : s.cloid_to_order_id c with _ | v <;> rcases oid with _ | o <;> cases m <;>
    simp [cleanup_order_tracking, hc, mdel_apply_self]

theorem cleanup_preregistered_none (now : ℚ) (s : BotState) (c : String) (oid : Option ℕ)
    (m : Bool) : (cleanup_order_tracking now s c oid m).preregistered_orders c = none := by
  rcases hc : s.cloid_to_order_id c with _ | v <;> rcases oid with _ | o <;> cases m <;>
    simp [cleanup_order_tracking, hc, mdel_apply_self]

theorem handleFullyFilled_unknown (now : ℚ) (s : BotState) (e : Event) (osize oprice : ℚ)
    (hsz : s.order_sizes e.cloid = none) (hpre : s.preregistered_orders e.cloid = none) :
    handleFullyFilled now s e osize oprice =
      cleanup_order_tracking now { s with error_log := s.error_log ++ [e.cloid] }
        e.cloid e.kuru_order_id false := by
  simp [handleFullyFilled, hsz, hpre]

theorem handleFullyFilled_is_cleanup (now : ℚ) (s : BotState) (e : Event) (osize oprice : ℚ) :
    ∃ sF, handleFullyFilled now s e osize oprice =
      cleanup_order_tracking now sF e.cloid e.kuru_order_id false := by
  unfold handleFullyFilled
  rcases hsz : s.order_sizes e.cloid with _ | prev
  · rcases hpre : s.preregistered_orders e.cloid with _ | pre
    · exact ⟨_, rfl⟩
    · exact ⟨_, rfl⟩
  · exact ⟨_, rfl⟩

/-- C3: processing the same terminal event twice for one cloid is
idempotent at the ledger: the second invocation leaves the Position
Ledger and the fill log untouched, all tracking-map removals are no-ops
(every tracking map is unchanged), and the handler — a total function —
does not raise.  Only the error log may grow (a duplicate FULLY_FILLED
is re-reported as an unattributable fill). -/
theorem C3_terminal_event_idempotent (s : BotState) (e : Event) (now1 now2 : ℚ)
    (ht : is_terminal e.status) :
    core (order_callback now2 (order_callback now1 s e) e) =
      core (order_callback now1 s e) := by
  by_cases hour : is_our_order s e
  · rcases ht with hst | hst | hst | hst
    · simp only [order_callback, if_pos hour, hst]
      obtain ⟨sF, hF⟩ := handleFullyFilled_is_cleanup now1 s e (e.size.getD 0) (e.price.getD 0)
      rw [hF]
      by_cases hour2 : is_our_order
          (cleanup_order_tracking now1 sF e.cloid e.kuru_order_id false) e
      · rw [if_pos hour2,
          handleFullyFilled_unknown now2 _ e _ _
            (cleanup_order_sizes_none now1 sF e.cloid e.kuru_order_id false)
            (cleanup_preregistered_none now1 sF e.cloid e.kuru_order_id false),
          cleanup_core_error]
        exact cleanup_cleanup_core now1 now2 sF e.cloid e.kuru_order_id false false
      · rw [if_neg hour2]
    · simp only [order_callback, if_pos hour, hst]
      by_cases hour2 : is_our_order
          (cleanup_order_tracking now1 s e.cloid e.kuru_order_id true) e
      · rw [if_pos hour2]
        exact cleanup_cleanup_core now1 now2 s e.cloid e.kuru_order_id true true
      · rw [if_neg hour2]
    · simp only [order_callback, if_pos hour, hst]
      by_cases hour2 : is_our_order
          (cleanup_order_tracking now1 s e.cloid e.kuru_order_id false) e
      · rw [if_pos hour2]
        exact cleanup_cleanup_core now1 now2 s e.cloid e.kuru_order_id false false
      · rw [if_neg hour2]
    · simp only [order_callback, if_pos hour, hst]
      by_cases hour2 : is_our_order
          (cleanup_order_tracking now1 s e.cloid e.kuru_order_id false) e
      · rw [if_pos hour2]
        exact cleanup_cleanup_core now1 now2 s e.cloid e.kuru_order_id false false
      · rw [if_neg hour2]
  · simp only [order_callback, if_neg hour]

theorem mdel_mi_pair (f : String → Option ℕ) (g : ℕ → Option String) (c : String) (v0 : ℕ)
    (hmi : MutualInverse f g) (hc : f c = some v0) :
    MutualInverse (mdel f c) (mdel g v0) := by
  constructor
  · intro c' v' h
    by_cases hcc : c' = c
    · rw [hcc, mdel_apply_self] at h
      exact Option.noConfusion h
    · rw [mdel_apply_ne f c c' hcc] at h
      have hg := hmi.1 c' v' h
      have hvv : v' ≠ v0 := by
        intro hv
        rw [hv] at hg
        have hgc := hmi.1 c v0 hc
        rw [hgc] at hg
        exact hcc (Option.some.inj hg).symm
      rw [mdel_apply_ne g v0 v' hvv]
      exact hg
  · intro v' c' h
    by_cases hvv : v' = v0
    · rw [hvv, mdel_apply_self] at h
      exact Option.noConfusion h
    · rw [mdel_apply_ne g v0 v' hvv] at h
      have hf := hmi.2 v' c' h
      have hcc : c' ≠ c := by
        intro hcEq
        rw [hcEq, hc] at hf
        exact hvv (Option.some.inj hf).symm
      rw [mdel_apply_ne f c c' hcc]
      exact hf

theorem mdel_g_extra (f : String → Option ℕ) (g : ℕ → Option String) (o : ℕ)
    (hmi : MutualInverse f g)
    (ho : ∀ c', g o = some c' → f c' = none) :
    MutualInverse f (mdel g o) := by
  constructor
  · intro c' v' h
    have hg := hmi.1 c' v' h
    have hvo : v' ≠ o := by
      intro hv
      rw [hv] at hg
      have hf := ho c' hg
      rw [hf] at h
      exact Option.noConfusion h
    rw [mdel_apply_ne g o v' hvo]
    exact hg
  · intro v' c' h
    by_cases hvo : v' = o
    · rw [hvo, mdel_apply_self] at h
      exact Option.noConfusion h
    · rw [mdel_apply_ne g o v' hvo] at h
      exact hmi.2 v' c' h

theorem cleanup_mutual_inverse (now : ℚ) (s : BotState) (c : String) (oid : Option ℕ)
    (m : Bool) (hmi : MutualInverse s.cloid_to_order_id s.order_id_to_cloid)
    (hoid : ∀ v, oid = some v →
      s.order_id_to_cloid v = none ∨ s.order_id_to_cloid v = some c) :
    MutualInverse (cleanup_order_tracking now s c oid m).cloid_to_order_id
      (cleanup_order_tracking now s c oid m).order_id_to_cloid := by
  rcases hc : s.cloid_to_order_id c with _ | v0
  · rcases oid with _ | o
    · cases m <;> simp only [cleanup_order_tracking, hc] <;> exact hmi
    · cases m <;> simp only [cleanup_order_tracking, hc] <;>
        · apply mdel_g_extra _ _ o hmi
          intro c' hgo
          rcases hoid o rfl with hn | hs
          · rw [hn] at hgo
            exact Option.noConfusion hgo
          · rw [hs] at hgo
            injection hgo with hcc
            rw [hcc] at hc
            exact hc
  · rcases oid with _ | o
    · cases m <;> simp only [cleanup_order_tracking, hc] <;>
        exact mdel_mi_pair _ _ c v0 hmi hc
    · cases m <;> simp only [cleanup_order_tracking, hc] <;>
        · apply mdel_g_extra _ _ o (mdel_mi_pair _ _ c v0 hmi hc)
          intro c' hgo
          by_cases hov : o = v0
          · rw [hov, mdel_apply_self] at hgo
            exact Option.noConfusion hgo
          · rw [mdel_apply_ne _ v0 o hov] at hgo
            rcases hoid o rfl with hn | hs
            · rw [hn] at hgo
              exact Option.noConfusion hgo
            · rw [hs] at hgo
              injection hgo with hcc
              rw [← hcc]
              exact mdel_apply_self _ _

theorem mupd_apply_ne {K V : Type} [DecidableEq K] (m : K → Option V) (k x : K) (v : V)
    (h : x ≠ k) : mupd m k v x = m x := by simp [mupd, h]

theorem mupd_mi_pair (f : String → Option ℕ) (g : ℕ → Option String) (c : String) (v : ℕ)
    (hmi : MutualInverse f g) (hgv : g v = none ∨ g v = some c)
    (hfc : f c = none ∨ f c = some v) :
    MutualInverse (mupd f c v) (mupd g v c) := by
  constructor
  · intro c' v' h
    by_cases hcc : c' = c
    · rw [hcc, mupd_apply_self] at h
      injection h with hv
      rw [hcc, ← hv, mupd_apply_self]
    · rw [mupd_apply_ne f c c' v hcc] at h
      have hg := hmi.1 c' v' h
      have hvv : v' ≠ v := by
        intro hveq
        rw [hveq] at hg
        rcases hgv with hn | hs
        · rw [hn] at hg
          exact Option.noConfusion hg
        · rw [hs] at hg
          exact hcc (Option.some.inj hg).symm
      rw [mupd_apply_ne g v v' c hvv]
      exact hg
  · intro v' c' h
    by_cases hvv : v' = v
    · rw [hvv, mupd_apply_self] at h
      injection h with hcEq
      rw [hvv, ← hcEq, mupd_apply_self]
    · rw [mupd_apply_ne g v v' c hvv] at h
      have hf := hmi.2 v' c' h
      have hcc : c' ≠ c := by
        intro hcEq
        rw [hcEq] at hf
        rcases hfc with hn | hs
        · rw [hn] at hf
          exact Option.noConfusion hf
        · rw [hs] at hf
          exact hvv (Option.some.inj hf).symm
      rw [mupd_apply_ne f c c' v hcc]
      exact hf

theorem handlePlaced_c2o (s : BotState) (e : Event) (osize oprice : ℚ) :
    (handlePlaced s e osize oprice).cloid_to_order_id =
      (match e.kuru_order_id with
       | some v => mupd s.cloid_to_order_id e.cloid v
       | none => s.cloid_to_order_id) := by
  rcases hoid : e.kuru_order_id with _ | v <;>
    rcases hos : s.order_sizes e.cloid with _ | sz <;>
    simp [handlePlaced, hoid, hos]
  all_goals
    rcases horr : s.orphaned_order_timestamps v with _ | t0 <;> simp [horr]

theorem handlePlaced_o2c (s : BotState) (e : Event) (osize oprice : ℚ) :
    (handlePlaced s e osize oprice).order_id_to_cloid =
      (match e.kuru_order_id with
       | some v => mupd s.order_id_to_cloid v e.cloid
       | none => s.order_id_to_cloid) := by
  rcases hoid : e.kuru_order_id with _ | v <;>
    rcases hos : s.order_sizes e.cloid with _ | sz <;>
    simp [handlePlaced, hoid, hos]
  all_goals
    rcases horr : s.orphaned_order_timestamps v with _ | t0 <;> simp [horr]

theorem placed_mutual_inverse (s : BotState) (e : Event) (osize oprice : ℚ)
    (hmi : MutualInverse s.cloid_to_order_id s.order_id_to_cloid)
    (hcompat : event_map_compat s e) :
    MutualInverse (handlePlaced s e osize oprice).cloid_to_order_id
      (handlePlaced s e osize oprice).order_id_to_cloid := by
  rw [handlePlaced_c2o, handlePlaced_o2c]
  rcases hoid : e.kuru_order_id with _ | v
  · exact hmi
  · exact mupd_mi_pair _ _ e.cloid v hmi (hcompat v hoid).1 (hcompat v hoid).2

theorem handlePartial_maps (s : BotState) (e : Event) (osize oprice : ℚ) :
    (handlePartiallyFilled s e osize oprice).cloid_to_order_id = s.cloid_to_order_id ∧
    (handlePartiallyFilled s e osize oprice).order_id_to_cloid = s.order_id_to_cloid := by
  rcases hsz : s.order_sizes e.cloid with _ | prev
  · rcases hpre : s.preregistered_orders e.cloid with _ | pre
    · simp [handlePartiallyFilled, hsz, hpre]
    · rcases halg : alGet s.active_orders e.cloid with _ | oi <;>
        simp [handlePartiallyFilled, hsz, hpre, halg, applyFill]
  · rcases halg : alGet s.active_orders e.cloid with _ | oi <;>
      simp [handlePartiallyFilled, hsz, halg, applyFill]

theorem handleFullyFilled_is_cleanup_maps (now : ℚ) (s : BotState) (e : Event)
    (osize oprice : ℚ) :
    ∃ sF, handleFullyFilled now s e osize oprice =
        cleanup_order_tracking now sF e.cloid e.kuru_order_id false ∧
      sF.cloid_to_order_id = s.cloid_to_order_id ∧
      sF.order_id_to_cloid = s.order_id_to_cloid := by
  unfold handleFullyFilled
  rcases hsz : s.order_sizes e.cloid with _ | prev
  · rcases hpre : s.preregistered_orders e.cloid with _ | pre
    · exact ⟨_, rfl, rfl, rfl⟩
    · exact ⟨_, rfl, rfl, rfl⟩
  · exact ⟨_, rfl, rfl, rfl⟩

theorem callback_mutual_inverse (s : BotState) (e : Event) (now : ℚ)
    (hmi : MutualInverse s.cloid_to_order_id s.order_id_to_cloid)
    (hcompat : event_map_compat s e) :
    MutualInverse (order_callback now s e).cloid_to_order_id
      (order_callback now s e).order_id_to_cloid := by
  by_cases hour : is_our_order s e
  · simp only [order_callback, if_pos hour]
    cases hst : e.status
    · simp only [hst]
      exact placed_mutual_inverse s e _ _ hmi hcompat
    · simp only [hst]
      exact cleanup_mutual_inverse now s e.cloid e.kuru_order_id true hmi
        (fun v hv => (hcompat v hv).1)
    · simp only [hst]
      rw [MutualInverse, (handlePartial_maps s e _ _).1, (handlePartial_maps s e _ _).2]
      exact hmi
    · simp only [hst]
      obtain ⟨sF, hF, h1, h2⟩ := handleFullyFilled_is_cleanup_maps now s e
        (e.size.getD 0) (e.price.getD 0)
      rw [hF]
      apply cleanup_mutual_inverse
      · rw [MutualInverse, h1, h2]
        exact hmi
      · intro v hv
        rw [h2]
        exact (hcompat v hv).1
    · simp only [hst]
      exact cleanup_mutual_inverse now s e.cloid e.kuru_order_id false hmi
        (fun v hv => (hcompat v hv).1)
    · simp only [hst]
      exact cleanup_mutual_inverse now s e.cloid e.kuru_order_id false hmi
        (fun v hv => (hcompat v hv).1)
  · simp only [order_callback, if_neg hour]
    exact hmi

/-- C9 (amended): starting from mutually inverse id maps, an order
callback invocation preserves mutual inverseness provided the event is
compatible with the current maps (its venue id is not already bound to a
different cloid and its cloid not to a different venue id), and a
tracking cleanup preserves it provided its venue-id argument is absent
or not bound to a different cloid; so each venue id maps to at most one
cloid.  (Unconditionally the claim is false — see the
counterexample.) -/
theorem C9_bidirectional_consistency_amended :
    (∀ (s : BotState) (e : Event) (now : ℚ),
      MutualInverse s.cloid_to_order_id s.order_id_to_cloid →
      event_map_compat s e →
      MutualInverse (order_callback now s e).cloid_to_order_id
        (order_callback now s e).order_id_to_cloid) ∧
    (∀ (s : BotState) (c : String) (oid : Option ℕ) (m : Bool) (now : ℚ),
      MutualInverse s.cloid_to_order_id s.order_id_to_cloid →
      (∀ v, oid = some v →
        s.order_id_to_cloid v = none ∨ s.order_id_to_cloid v = some c) →
      MutualInverse (cleanup_order_tracking now s c oid m).cloid_to_order_id
        (cleanup_order_tracking now s c oid m).order_id_to_cloid) :=
  ⟨fun s e now hmi hcompat => callback_mutual_inverse s e now hmi hcompat,
   fun s c oid m now hmi hoid => cleanup_mutual_inverse now s c oid m hmi hoid⟩

/-- C9 counterexample: the invariant as claimed — after ANY order
callback invocation the maps stay mutual inverses — fails: `c9_s` has
mutually inverse maps, yet processing `c9_e` (a PLACED event whose venue
id is already bound to another cloid) leaves "c1" mapped to venue id 1
while venue id 1 maps back to "c2". -/
theorem C9_counterexample :
    MutualInverse c9_s.cloid_to_order_id c9_s.order_id_to_cloid ∧
    ¬ MutualInverse (order_callback 0 c9_s c9_e).cloid_to_order_id
        (order_callback 0 c9_s c9_e).order_id_to_cloid := by
  constructor
  · constructor
    · intro c v h
      simp only [c9_s] at h ⊢
      by_cases hc : c = "c1"
      · rw [hc, mupd_apply_self] at h
        injection h with hv
        rw [hc, ← hv, mupd_apply_self]
      · rw [mupd_apply_ne _ _ _ _ hc] at h
        exact Option.noConfusion h
    · intro v c h
      simp only [c9_s] at h ⊢
      by_cases hv : v = 1
      · rw [hv, mupd_apply_self] at h
        injection h with hc
        rw [hv, ← hc, mupd_apply_self]
      · rw [mupd_apply_ne _ _ _ _ hv] at h
        exact Option.noConfusion h
  · intro hmi
    have hour : is_our_order c9_s c9_e := by
      right; left
      simp [c9_s, c9_e, mupd]
    have hc2o : (order_callback 0 c9_s c9_e).cloid_to_order_id "c1" = some 1 := by
      simp only [order_callback, if_pos hour]
      rw [show c9_e.status = OrderStatus.ORDER_PLACED from rfl]
      rw [handlePlaced_c2o]
      simp [c9_e, c9_s, mupd]
    have ho2c : (order_callback 0 c9_s c9_e).order_id_to_cloid 1 = some "c2" := by
      simp only [order_callback, if_pos hour]
      rw [show c9_e.status = OrderStatus.ORDER_PLACED from rfl]
      rw [handlePlaced_o2c]
      simp [c9_e, c9_s, mupd]
    have := hmi.1 "c1" 1 hc2o
    rw [ho2c] at this
    simp at this

/-- Witness for the amended C9: a compatible PLACED event on mutually
inverse maps keeps them mutually inverse. -/
theorem C9_bidirectional_consistency_amended_witness :
    MutualInverse c9w_s.cloid_to_order_id c9w_s.order_id_to_cloid ∧
    event_map_compat c9w_s c9w_e ∧
    MutualInverse (order_callback 0 c9w_s c9w_e).cloid_to_order_id
      (order_callback 0 c9w_s c9w_e).order_id_to_cloid := by
  have hmi : MutualInverse c9w_s.cloid_to_order_id c9w_s.order_id_to_cloid := by
    constructor
    · intro c v h
      simp [c9w_s] at h
    · intro v c h
      simp [c9w_s] at h
  have hcompat : event_map_compat c9w_s c9w_e := by
    intro v hv
    exact ⟨Or.inl rfl, Or.inl rfl⟩
  exact ⟨hmi, hcompat, C9_bidirectional_consistency_amended.1 c9w_s c9w_e 0 hmi hcompat⟩

theorem required_buys_persist (l : List BatchOrder)
    (acc : ℚ × ℚ × List BatchOrder × List BatchOrder) (o : BatchOrder)
    (h : o ∈ acc.2.2.1) : o ∈ (l.foldl required_step acc).2.2.1 := by
  induction l generalizing acc with
  | nil => exact h
  | cons x t ih =>
      show o ∈ (t.foldl required_step (required_step acc x)).2.2.1
      apply ih
      rcases hs : x.side with _ | side
      · simpa [required_step, hs] using h
      · cases side
        · rcases hsz : x.size with _ | sz
          · simpa [required_step, hs, hsz] using h
          · rcases hp : x.price with _ | pr
            · simpa [required_step, hs, hsz, hp] using h
            · simp only [required_step, hs, hsz, hp]
              exact List.mem_append_left _ h
        · rcases hsz : x.size with _ | sz
          · simpa [required_step, hs, hsz] using h
          · simpa [required_step, hs, hsz] using h

theorem required_sells_persist (l : List BatchOrder)
    (acc : ℚ × ℚ × List BatchOrder × List BatchOrder) (o : BatchOrder)
    (h : o ∈ acc.2.2.2) : o ∈ (l.foldl required_step acc).2.2.2 := by
  induction l generalizing acc with
  | nil => exact h
  | cons x t ih =>
      show o ∈ (t.foldl required_step (required_step acc x)).2.2.2
      apply ih
      rcases hs : x.side with _ | side
      · simpa [required_step, hs] using h
      · cases side
        · rcases hsz : x.size with _ | sz
          · simpa [required_step, hs, hsz] using h
          · rcases hp : x.price with _ | pr
            · simpa [required_step, hs, hsz, hp] using h
            · simpa [required_step, hs, hsz, hp] using h
        · rcases hsz : x.size with _ | sz
          · simpa [required_step, hs, hsz] using h
          · simp only [required_step, hs, hsz]
            exact List.mem_append_left _ h

theorem required_buys_mem (l : List BatchOrder)
    (acc : ℚ × ℚ × List BatchOrder × List BatchOrder) (o : BatchOrder)
    (ho : o ∈ l) (hside : o.side = some OrderSide.BUY)
    (hsz : o.size ≠ none) (hp : o.price ≠ none) :
    o ∈ (l.foldl required_step acc).2.2.1 := by
  induction l generalizing acc with
  | nil => exact absurd ho (List.not_mem_nil o)
  | cons x t ih =>
      show o ∈ (t.foldl required_step (required_step acc x)).2.2.1
      rcases List.mem_cons.mp ho with rfl | hot
      · rcases hszx : o.size with _ | sz
        · exact absurd hszx hsz
        · rcases hpx : o.price with _ | pr
          · exact absurd hpx hp
          · apply required_buys_persist
            simp [required_step, hside, hszx, hpx]
      · exact ih (required_step acc x) hot

theorem required_sells_mem (l : List BatchOrder)
    (acc : ℚ × ℚ × List BatchOrder × List BatchOrder) (o : BatchOrder)
    (ho : o ∈ l) (hside : o.side = some OrderSide.SELL) (hsz : o.size ≠ none) :
    o ∈ (l.foldl required_step acc).2.2.2 := by
  induction l generalizing acc with
  | nil => exact absurd ho (List.not_mem_nil o)
  | cons x t ih =>
      show o ∈ (t.foldl required_step (required_step acc x)).2.2.2
      rcases List.mem_cons.mp ho with rfl | hot
      · rcases hszx : o.size with _ | sz
        · exact absurd hszx hsz
        · apply required_sells_persist
          simp [required_step, hside, hszx]
      · exact ih (required_step acc x) hot

theorem required_step_buys_side (acc : ℚ × ℚ × List BatchOrder × List BatchOrder)
    (x o : BatchOrder) (h : o ∈ (required_step acc x).2.2.1) :
    o ∈ acc.2.2.1 ∨ o.side = some OrderSide.BUY := by
  rcases hs : x.side with _ | side
  · simp [required_step, hs] at h
    exact Or.inl h
  · cases side
    · rcases hsz : x.size with _ | sz
      · simp [required_step, hs, hsz] at h
        exact Or.inl h
      · rcases hp : x.price with _ | pr
        · simp [required_step, hs, hsz, hp] at h
          exact Or.inl h
        · simp only [required_step, hs, hsz, hp] at h
          rcases List.mem_append.mp h with h1 | h2
          · exact Or.inl h1
          · rw [List.mem_singleton.mp h2]
            exact Or.inr hs
    · rcases hsz : x.size with _ | sz
      · simp [required_step, hs, hsz] at h
        exact Or.inl h
      · simp [required_step, hs, hsz] at h
        exact Or.inl h

theorem required_step_sells_side (acc : ℚ × ℚ × List BatchOrder × List BatchOrder)
    (x o : BatchOrder) (h : o ∈ (required_step acc x).2.2.2) :
    o ∈ acc.2.2.2 ∨ o.side = some OrderSide.SELL := by
  rcases hs : x.side with _ | side
  · simp [required_step, hs] at h
    exact Or.inl h
  · cases side
    · rcases hsz : x.size with _ | sz
      · simp [required_step, hs, hsz] at h
        exact Or.inl h
      · rcases hp : x.price with _ | pr
        · simp [required_step, hs, hsz, hp] at h
          exact Or.inl h
        · simp [required_step, hs, hsz, hp] at h
          exact Or.inl h
    · rcases hsz : x.size with _ | sz
      · simp [required_step, hs, hsz] at h
        exact Or.inl h
      · simp only [required_step, hs, hsz] at h
        rcases List.mem_append.mp h with h1 | h2
        · exact Or.inl h1
        · rw [List.mem_singleton.mp h2]
          exact Or.inr hs

theorem required_buys_side (l : List BatchOrder)
    (acc : ℚ × ℚ × List BatchOrder × List BatchOrder) (o : BatchOrder)
    (h : o ∈ (l.foldl required_step acc).2.2.1) :
    o ∈ acc.2.2.1 ∨ o.side = some OrderSide.BUY := by
  induction l generalizing acc with
  | nil => exact Or.inl h
  | cons x t ih =>
      rcases ih (required_step acc x) h with hacc | hbuy
      · exact required_step_buys_side acc x o hacc
      · exact Or.inr hbuy

theorem required_sells_side (l : List BatchOrder)
    (acc : ℚ × ℚ × List BatchOrder × List BatchOrder) (o : BatchOrder)
    (h : o ∈ (l.foldl required_step acc).2.2.2) :
    o ∈ acc.2.2.2 ∨ o.side = some OrderSide.SELL := by
  induction l generalizing acc with
  | nil => exact Or.inl h
  | cons x t ih =>
      rcases ih (required_step acc x) h with hacc | hsell
      · exact required_step_sells_side acc x o hacc
      · exact Or.inr hsell

theorem filter_orders_by_balance_eq (o2c : ℕ → Option String) (sp pp bb qb : ℚ)
    (orders : List BatchOrder) (chain : List ChainOrder) :
    filter_orders_by_balance o2c sp pp bb qb orders chain =
      (if (required_and_split (orders.filter (fun o => o.order_type = OrderType.LIMIT))).2.1 ≤
          (available_after_cancels (build_on_chain_by_cloid o2c chain) sp pp
            (orders.filter (fun o => o.order_type = OrderType.CANCEL)) bb qb).2 then
        orders.filter (fun o => o.order_type = OrderType.CANCEL) ++
          (required_and_split (orders.filter (fun o => o.order_type = OrderType.LIMIT))).2.2.1
       else orders.filter (fun o => o.order_type = OrderType.CANCEL)) ++
      (if (required_and_split (orders.filter (fun o => o.order_type = OrderType.LIMIT))).1 ≤
          (available_after_cancels (build_on_chain_by_cloid o2c chain) sp pp
            (orders.filter (fun o => o.order_type = OrderType.CANCEL)) bb qb).1 then
        (required_and_split (orders.filter (fun o => o.order_type = OrderType.LIMIT))).2.2.2
       else []) := by
  by_cases h1 : (required_and_split (orders.filter (fun o => o.order_type = OrderType.LIMIT))).2.1 ≤
      (available_after_cancels (build_on_chain_by_cloid o2c chain) sp pp
        (orders.filter (fun o => o.order_type = OrderType.CANCEL)) bb qb).2 <;>
    by_cases h2 : (required_and_split (orders.filter (fun o => o.order_type = OrderType.LIMIT))).1 ≤
        (available_after_cancels (build_on_chain_by_cloid o2c chain) sp pp
          (orders.filter (fun o => o.order_type = OrderType.CANCEL)) bb qb).1 <;>
    simp [filter_orders_by_balance, h1, h2]

/-- C10: the affordability filter always returns every CANCEL order from
its input, and applies balance filtering per side all-or-nothing: if the
quote required by the batch's well-formed buy orders exceeds free quote
(after adding back the amounts released by the batch's cancels) then no
buy order survives, otherwise every well-formed buy order is kept;
symmetrically for sell orders against free base. -/
theorem C10_balance_filter (o2c : ℕ → Option String) (sp pp bb qb : ℚ)
    (orders : List BatchOrder) (chain : List ChainOrder) :
    (∀ o ∈ orders, o.order_type = OrderType.CANCEL →
      o ∈ filter_orders_by_balance o2c sp pp bb qb orders chain) ∧
    ((required_and_split (orders.filter (fun o => o.order_type = OrderType.LIMIT))).2.1 ≤
        (available_after_cancels (build_on_chain_by_cloid o2c chain) sp pp
          (orders.filter (fun o => o.order_type = OrderType.CANCEL)) bb qb).2 →
      ∀ o ∈ orders, o.order_type = OrderType.LIMIT → o.side = some OrderSide.BUY →
        o.size ≠ none → o.price ≠ none →
        o ∈ filter_orders_by_balance o2c sp pp bb qb orders chain) ∧
    (¬ (required_and_split (orders.filter (fun o => o.order_type = OrderType.LIMIT))).2.1 ≤
        (available_after_cancels (build_on_chain_by_cloid o2c chain) sp pp
          (orders.filter (fun o => o.order_type = OrderType.CANCEL)) bb qb).2 →
      ∀ o ∈ filter_orders_by_balance o2c sp pp bb qb orders chain,
        ¬ (o.order_type = OrderType.LIMIT ∧ o.side = some OrderSide.BUY)) ∧
    ((required_and_split (orders.filter (fun o => o.order_type = OrderType.LIMIT))).1 ≤
        (available_after_cancels (build_on_chain_by_cloid o2c chain) sp pp
          (orders.filter (fun o => o.order_type = OrderType.CANCEL)) bb qb).1 →
      ∀ o ∈ orders, o.order_type = OrderType.LIMIT → o.side = some OrderSide.SELL →
        o.size ≠ none →
        o ∈ filter_orders_by_balance o2c sp pp bb qb orders chain) ∧
    (¬ (required_and_split (orders.filter (fun o => o.order_type = OrderType.LIMIT))).1 ≤
        (available_after_cancels (build_on_chain_by_cloid o2c chain) sp pp
          (orders.filter (fun o => o.order_type = OrderType.CANCEL)) bb qb).1 →
      ∀ o ∈ filter_orders_by_balance o2c sp pp bb qb orders chain,
        ¬ (o.order_type = OrderType.LIMIT ∧ o.side = some OrderSide.SELL)) := by
  rw [filter_orders_by_balance_eq]
  refine ⟨?_, ?_, ?_, ?_, ?_⟩
  · intro o ho htype
    apply List.mem_append_left
    have hmem : o ∈ orders.filter (fun o => o.order_type = OrderType.CANCEL) :=
      List.mem_filter.mpr ⟨ho, by simp [htype]⟩
    by_cases h1 : (required_and_split (orders.filter (fun o => o.order_type = OrderType.LIMIT))).2.1 ≤
        (available_after_cancels (build_on_chain_by_cloid o2c chain) sp pp
          (orders.filter (fun o => o.order_type = OrderType.CANCEL)) bb qb).2
    · rw [if_pos h1]
      exact List.mem_append_left _ hmem
    · rw [if_neg h1]
      exact hmem
  · intro h1 o ho htype hside hsz hp
    apply List.mem_append_left
    rw [if_pos h1]
    apply List.mem_append_right
    exact required_buys_mem _ _ o (List.mem_filter.mpr ⟨ho, by simp [htype]⟩) hside hsz hp
  · intro h1 o ho hbad
    rcases List.mem_append.mp ho with hl | hr
    · rw [if_neg h1] at hl
      have := (List.mem_filter.mp hl).2
      simp at this
      rw [hbad.1] at this
      exact OrderType.noConfusion this
    · by_cases h2 : (required_and_split (orders.filter (fun o => o.order_type = OrderType.LIMIT))).1 ≤
          (available_after_cancels (build_on_chain_by_cloid o2c chain) sp pp
            (orders.filter (fun o => o.order_type = OrderType.CANCEL)) bb qb).1
      · rw [if_pos h2] at hr
        rcases required_sells_side _ _ o hr with hacc | hsell
        · simp at hacc
        · rw [hbad.2] at hsell
          exact OrderSide.noConfusion (Option.some.inj hsell)
      · rw [if_neg h2] at hr
        simp at hr
  · intro h2 o ho htype hside hsz
    apply List.mem_append_right
    rw [if_pos h2]
    exact required_sells_mem _ _ o (List.mem_filter.mpr ⟨ho, by simp [htype]⟩) hside hsz
  · intro h2 o ho hbad
    rcases List.mem_append.mp ho with hl | hr
    · by_cases h1 : (required_and_split (orders.filter (fun o => o.order_type = OrderType.LIMIT))).2.1 ≤
          (available_after_cancels (build_on_chain_by_cloid o2c chain) sp pp
            (orders.filter (fun o => o.order_type = OrderType.CANCEL)) bb qb).2
      · rw [if_pos h1] at hl
        rcases List.mem_append.mp hl with hc | hb
        · have := (List.mem_filter.mp hc).2
          simp at this
          rw [hbad.1] at this
          exact OrderType.noConfusion this
        · rcases required_buys_side _ _ o hb with hacc | hbuy
          · simp at hacc
          · rw [hbad.2] at hbuy
            exact OrderSide.noConfusion (Option.some.inj hbuy)
      · rw [if_neg h1] at hl
        have := (List.mem_filter.mp hl).2
        simp at this
        rw [hbad.1] at this
        exact OrderType.noConfusion this
    · rw [if_neg h2] at hr
      simp at hr

/-- Witness for C2: the tracked size is 10, the reported remaining size
is 4, and the ledger is fed a single fill of 10 − 4 = 6. -/
theorem C2_fill_quantity_attribution_witness :
    is_our_order c2w_s c2w_e ∧
    (order_callback 0 c2w_s c2w_e).fill_log = [⟨some OrderSide.BUY, 6, 2⟩] := by
  have hour : is_our_order c2w_s c2w_e := by
    right; left
    simp [c2w_s, c2w_e, mupd]
  have h := (C2_fill_quantity_attribution c2w_s c2w_e 0 hour (Or.inl rfl)).1 10
    (by simp [c2w_s, c2w_e, mupd])
  refine ⟨hour, ?_⟩
  rw [h.1]
  norm_num [c2w_s, c2w_e]

/-- Witness for C3: cancelling the same order twice leaves the tracking
core exactly as after the first cancellation. -/
theorem C3_terminal_event_idempotent_witness :
    is_terminal c3w_e.status ∧
    core (order_callback 2 (order_callback 1 c3w_s c3w_e) c3w_e) =
      core (order_callback 1 c3w_s c3w_e) :=
  ⟨Or.inr (Or.inl rfl),
   C3_terminal_event_idempotent c3w_s c3w_e 1 2 (Or.inr (Or.inl rfl))⟩

/-- Witness for C10: with ample balances the filter keeps the cancel,
the buy and the sell. -/
theorem C10_balance_filter_witness :
    BatchOrder.mk "c" OrderType.CANCEL none none none ∈
      filter_orders_by_balance (fun _ => none) 1 1 100 100 c10w_orders [] ∧
    BatchOrder.mk "b" OrderType.LIMIT (some OrderSide.BUY) (some 3) (some 2) ∈
      filter_orders_by_balance (fun _ => none) 1 1 100 100 c10w_orders [] ∧
    BatchOrder.mk "s" OrderType.LIMIT (some OrderSide.SELL) none (some 4) ∈
      filter_orders_by_balance (fun _ => none) 1 1 100 100 c10w_orders [] := by
  have hfl : c10w_orders.filter (fun o => o.order_type = OrderType.LIMIT) =
      [⟨"b", OrderType.LIMIT, some OrderSide.BUY, some 3, some 2⟩,
       ⟨"s", OrderType.LIMIT, some OrderSide.SELL, none, some 4⟩] := rfl
  have hfc : c10w_orders.filter (fun o => o.order_type = OrderType.CANCEL) =
      [⟨"c", OrderType.CANCEL, none, none, none⟩] := rfl
  have h1 : (required_and_split (c10w_orders.filter
        (fun o => o.order_type = OrderType.LIMIT))).2.1 ≤
      (available_after_cancels (build_on_chain_by_cloid (fun _ => none) []) 1 1
        (c10w_orders.filter (fun o => o.order_type = OrderType.CANCEL)) 100 100).2 := by
    rw [hfl, hfc]
    norm_num [required_and_split, required_step, available_after_cancels,
      build_on_chain_by_cloid]
  have h2 : (required_and_split (c10w_orders.filter
        (fun o => o.order_type = OrderType.LIMIT))).1 ≤
      (available_after_cancels (build_on_chain_by_cloid (fun _ => none) []) 1 1
        (c10w_orders.filter (fun o => o.order_type = OrderType.CANCEL)) 100 100).1 := by
    rw [hfl, hfc]
    norm_num [required_and_split, required_step, available_after_cancels,
      build_on_chain_by_cloid]
  have hthm := C10_balance_filter (fun _ => none) 1 1 100 100 c10w_orders []
  exact ⟨hthm.1 _ (by simp [c10w_orders]) rfl,
    hthm.2.1 h1 _ (by simp [c10w_orders]) rfl rfl (by simp) (by simp),
    hthm.2.2.2.1 h2 _ (by simp [c10w_orders]) rfl rfl (by simp)⟩

end MMBot
